import Mathlib

/-!
# A shallow embedding of the `oci` image library

The Go package builds OCI image layouts on an `afero` filesystem: a
content-addressed blob store (`descriptorWriter.go`, `descriptorReader.go`),
a tar codec (`tar_writer.go`, `tar_reader.go`), layer and image assembly
(`layer_writer.go`, `layer_reader.go`, `image.go`), image layouts and repositories
(`imageLayout.go`, `repository.go`).

Conventions of the embedding:

* Go strings are lists of characters (`Str`), so that every string function the
  code relies on is structurally recursive and evaluates in the kernel.
* A Go call that may return an error or dereference a nil value returns an
  `Outcome`: `ok`, `error` or `panic`.
* Mutable objects (filesystems, writers) are passed and returned explicitly.
* Library code that is not part of the package (the hash function, the OS
  filesystem, `filepath.Walk`) appears as data: a `DigestLib`, an `OsFs`, the list
  of `(path, info)` pairs the walker hands to the callback.
-/

set_option autoImplicit false

namespace Oci

/-! ## Strings and paths -/

/-- Go strings, as character sequences. -/
abbrev Str := List Char

/-- Byte values. -/
abbrev Byte := Nat

/-- Byte slices. -/
abbrev Bytes := List Byte

/-- Go `strings.Contains(s, sub)`. -/
def Contains : Str → Str → Bool
  | [], sub => sub.isEmpty
  | c :: s, sub => sub.isPrefixOf (c :: s) || Contains s sub

/-- The scanning loop of Go `strings.Replace(s, old, new, -1)` for a non-empty `old`:
`skip` counts the characters of a matched occurrence still to be dropped. -/
def replaceScan (old new : Str) : Nat → Str → Str
  | _, [] => []
  | skip + 1, _ :: s => replaceScan old new skip s
  | 0, c :: s =>
    if old.isPrefixOf (c :: s) then new ++ replaceScan old new (old.length - 1) s
    else c :: replaceScan old new 0 s

/-- Go `strings.Replace(s, old, new, -1)`: every non-overlapping occurrence of `old`,
found left to right, is replaced; an empty `old` matches before every character and at
the end. -/
def Replace (s old new : Str) : Str :=
  if old = new then s
  else if old = [] then new ++ s.flatMap (fun c => c :: new)
  else replaceScan old new 0 s

/-- Splits at every separator character, as `strings.Split` does. -/
def splitOn (sep : Char) : Str → List Str
  | [] => [[]]
  | c :: s =>
    if c = sep then [] :: splitOn sep s
    else match splitOn sep s with
      | [] => [[c]]
      | h :: t => (c :: h) :: t

/-- One component of the lexical processing of `filepath.Clean`; the stack of kept
components is held in reverse. -/
def cleanStep (rooted : Bool) (stack : List Str) (c : Str) : List Str :=
  if c = [] ∨ c = ['.'] then stack
  else if c = ['.', '.'] then
    match stack with
    | [] => if rooted then [] else [c]
    | top :: rest => if top = ['.', '.'] then c :: stack else rest
  else c :: stack

/-- Go `filepath.Clean` on a Unix path. -/
def Clean (path : Str) : Str :=
  if path = [] then ['.']
  else
    let rooted := path.head? == some '/'
    let comps := ((splitOn '/' path).foldl (cleanStep rooted) []).reverse
    let body := List.intercalate ['/'] comps
    let out := if rooted then '/' :: body else body
    if out = [] then ['.'] else out

/-- Go `filepath.Dir`: everything up to the last separator, cleaned. -/
def Dir (path : Str) : Str :=
  Clean (path.reverse.dropWhile (fun c => c != '/')).reverse

/-- Go `filepath.Base`: the last element of the path. -/
def Base (path : Str) : Str :=
  if path = [] then ['.']
  else
    let stripped := path.reverse.dropWhile (fun c => c == '/')
    let last := (stripped.takeWhile (fun c => c != '/')).reverse
    if last = [] then ['/'] else last

/-- Go `filepath.Join`: leading empty elements are dropped, the rest is joined with the
separator and cleaned. -/
def Join (elem : List Str) : Str :=
  match elem.dropWhile (fun e => e.isEmpty) with
  | [] => []
  | rest => Clean (List.intercalate ['/'] rest)

/-! ## Results of Go calls -/

/-- Error values the embedding distinguishes. -/
inductive Err where
  | notExist
  | exist
  | closed
  | readlink
  | unknownMode
  | eof
  | other
  | repoExists
  | noRepository
  | layoutExists
  | layoutUnreadable
  | gzipHeader
  | missedWriting
  | writeTooLong
  | headerError
  deriving DecidableEq, Repr

/-- Result of a Go call: a value, a returned error, or a run-time panic. -/
inductive Outcome (α : Type) where
  | ok : α → Outcome α
  | error : Err → Outcome α
  | panic : Outcome α
  deriving DecidableEq, Repr

/-- Sequencing of calls: the first error or panic ends the computation. -/
def Outcome.bind {α β : Type} (x : Outcome α) (f : α → Outcome β) : Outcome β :=
  match x with
  | .ok a => f a
  | .error e => .error e
  | .panic => .panic

/-- Applies a function to the value of a successful call. -/
def Outcome.map {α β : Type} (f : α → β) (x : Outcome α) : Outcome β :=
  x.bind fun a => .ok (f a)

/-! ## The afero filesystem -/

/-- A node of an afero filesystem. -/
structure FsNode where
  isDir : Bool
  data : Bytes
  mode : Nat
  uid : Int
  gid : Int
  atime : Int
  mtime : Int
  link : Option Str
  deriving DecidableEq, Repr

/-- An afero filesystem: the node stored under each name. -/
abbrev Fs := Str → Option FsNode

/-- A freshly created regular file. -/
def emptyFile (mode : Nat) : FsNode :=
  { isDir := false, data := [], mode := mode, uid := 0, gid := 0, atime := 0, mtime := 0,
    link := none }

/-- Stores `n` under `name`. -/
def Fs.put (fs : Fs) (name : Str) (n : FsNode) : Fs :=
  fun q => if q = name then some n else fs q

/-- Drops the node under `name`. -/
def Fs.del (fs : Fs) (name : Str) : Fs :=
  fun q => if q = name then none else fs q

/-- `fs.Rename(oldname, newname)`. -/
def Fs.Rename (fs : Fs) (oldname newname : Str) : Outcome Fs :=
  match fs oldname with
  | none => .error .notExist
  | some n => .ok ((fs.del oldname).put newname n)

/-- `fs.Remove(name)`: removes the node, `ErrNotExist` when there is none. -/
def Fs.Remove (fs : Fs) (name : Str) : Outcome Fs :=
  match fs name with
  | none => .error .notExist
  | some _ => .ok (fs.del name)

/-- `fs.Mkdir(name, mode)`: `ErrExist` when the name is taken. -/
def Fs.Mkdir (fs : Fs) (name : Str) (mode : Nat) : Outcome Fs :=
  match fs name with
  | some _ => .error .exist
  | none => .ok (fs.put name { emptyFile mode with isDir := true })

/-- `fs.Create(name)`: creates the file or truncates it. -/
def Fs.Create (fs : Fs) (name : Str) : Outcome Fs :=
  .ok (fs.put name (emptyFile 0o666))

/-- `fs.Chmod(name, mode)`. -/
def Fs.Chmod (fs : Fs) (name : Str) (mode : Nat) : Outcome Fs :=
  match fs name with
  | none => .error .notExist
  | some n => .ok (fs.put name { n with mode := mode })

/-- `fs.Chown(name, uid, gid)`. -/
def Fs.Chown (fs : Fs) (name : Str) (uid gid : Int) : Outcome Fs :=
  match fs name with
  | none => .error .notExist
  | some n => .ok (fs.put name { n with uid := uid, gid := gid })

/-- `fs.Chtimes(name, atime, mtime)`. -/
def Fs.Chtimes (fs : Fs) (name : Str) (atime mtime : Int) : Outcome Fs :=
  match fs name with
  | none => .error .notExist
  | some n => .ok (fs.put name { n with atime := atime, mtime := mtime })

/-- `Linker.SymlinkIfPossible(oldname, newname)`: `ErrExist` when the new name is taken. -/
def Fs.SymlinkIfPossible (fs : Fs) (oldname newname : Str) : Outcome Fs :=
  match fs newname with
  | some _ => .error .exist
  | none => .ok (fs.put newname { emptyFile 0o777 with link := some oldname })

/-- `afero.Exists(fs, path)`: whether `Stat` finds a node. -/
def afero.Exists (fs : Fs) (path : Str) : Bool :=
  (fs path).isSome

/-- `afero.DirExists(fs, path)`: whether `Stat` finds a directory. -/
def afero.DirExists (fs : Fs) (path : Str) : Bool :=
  match fs path with
  | some n => n.isDir
  | none => false

/-- `fs.MkdirAll(path, perm)`: nothing to do on a directory, an error on another node;
the parents it creates are not represented. -/
def Fs.MkdirAll (fs : Fs) (path : Str) (perm : Nat) : Outcome Fs :=
  match fs path with
  | some n => if n.isDir then .ok fs else .error .exist
  | none => .ok (fs.put path { emptyFile perm with isDir := true })

/-- An `afero.BasePathFs`: a source filesystem seen from a base path. -/
structure BasePathFs where
  source : Fs
  path : Str

/-- `BasePathFs.RealPath(name)`: the name joined to the cleaned base path; a result
outside the base path is `ErrNotExist`. -/
def BasePathFs.RealPath (b : BasePathFs) (name : Str) : Outcome Str :=
  let bpath := Clean b.path
  let path := Clean (Join [bpath, name])
  if bpath.isPrefixOf path then .ok path else .error .notExist

/-- `BasePathFs.Open(name)`: opens the real path on the source. -/
def BasePathFs.Open (b : BasePathFs) (name : Str) : Outcome FsNode :=
  (b.RealPath name).bind fun path =>
    match b.source path with
    | none => .error .notExist
    | some n => .ok n

/-- Name of the staging file for the pattern `.tmp.*`: the star is replaced by the
random string `rnd` the library draws, and the result is joined to the directory. -/
def stagingName (dir rnd : Str) : Str :=
  Join [dir, ".tmp.".toList ++ rnd]

/-- `afero.TempFile(fs, dir, ".tmp.*")`: creates, exclusively, the file
`dir/.tmp.<rnd>`. -/
def TempFile (fs : Fs) (dir rnd : Str) : Outcome (Fs × Str) :=
  let name := stagingName dir rnd
  match fs name with
  | some _ => .error .exist
  | none => .ok (fs.put name (emptyFile 0o600), name)

/-! ## Digests and descriptors -/

/-- The go-digest library, as far as the package uses it: which algorithms are
available, and the hex encoding of the hash of a byte sequence. -/
structure DigestLib where
  available : Str → Bool
  sum : Str → Bytes → Str

/-- Constant `digest.Canonical`. -/
def Canonical : Str := "sha256".toList

/-- A digest: algorithm tag and hex encoded hash. -/
structure Digest where
  Algorithm : Str
  Encoded : Str
  deriving DecidableEq, Repr

/-- Platform of a descriptor. -/
structure Platform where
  OS : Str
  Architecture : Str
  deriving DecidableEq, Repr

/-- The `specsv1.Descriptor` fields the package sets. -/
structure Descriptor where
  MediaType : Str
  Digest : Digest
  Size : Int
  Platform : Option Platform
  deriving DecidableEq, Repr

/-- The zero value `specsv1.Descriptor{}`. -/
def Descriptor.zero : Descriptor :=
  { MediaType := [], Digest := ⟨[], []⟩, Size := 0, Platform := none }

/-- Constant `blobsDirectory`. -/
def blobsDirectory : Str := "blobs".toList

/-- Storage path `filepath.Join(blobsDirectory, algorithm, encoded)` of a digest. -/
def blobPath (d : Digest) : Str :=
  Join [blobsDirectory, d.Algorithm, d.Encoded]

/-! ## descriptorWriter.go -/

/-- An open `afero.File`: its name and whether it has been closed. -/
structure File where
  name : Str
  closed : Bool
  deriving DecidableEq, Repr

/-- A `digest.Digester`: its algorithm and the bytes its hash has absorbed. -/
structure Digester where
  alg : Str
  absorbed : Bytes
  deriving DecidableEq, Repr

/-- A non-nil `afero.Fs` interface value. The filesystem state itself is threaded
through the calls. -/
abbrev FsRef := Unit

/-- The struct `DescriptorWriter`. Field `writer` is the `io.MultiWriter` over
`backingFile` and the digester's hash, and has no state of its own. -/
structure DescriptorWriter where
  backingFile : File
  digester : Digester
  descriptor : Descriptor
  fs : Option FsRef
  deriving DecidableEq, Repr

/-- `NewDescriptorWriterFs(fs, path, mediaType, alg, plat)`. The struct literal of the
source sets `backingFile`, `digester` and `descriptor`; field `fs` keeps its zero value. -/
def NewDescriptorWriterFs (lib : DigestLib) (fs : Fs) (path mediaType alg : Str)
    (plat : Option Platform) (rnd : Str) : Outcome (Fs × DescriptorWriter) :=
  (TempFile fs path rnd).bind fun (fs1, name) =>
    let alg1 := if lib.available alg then alg else Canonical
    .ok (fs1,
      { backingFile := { name := name, closed := false }
        digester := { alg := alg1, absorbed := [] }
        descriptor := { Descriptor.zero with MediaType := mediaType, Platform := plat }
        fs := none })

/-- `File.Write(p)` on the backing file: appends to the node stored under the name. -/
def File.Write (fs : Fs) (f : File) (p : Bytes) : Outcome Fs :=
  if f.closed then .error .closed
  else match fs f.name with
    | none => .error .notExist
    | some n => .ok (fs.put f.name { n with data := n.data ++ p })

/-- `DescriptorWriter.Write(p)`: the multi-writer sends `p` to the backing file, then to
the hash; on success the size grows by the number of bytes written. -/
def DescriptorWriter.Write (fs : Fs) (d : DescriptorWriter) (p : Bytes) :
    Outcome (Fs × DescriptorWriter) :=
  (File.Write fs d.backingFile p).bind fun fs1 =>
    .ok (fs1,
      { d with
        digester := { d.digester with absorbed := d.digester.absorbed ++ p }
        descriptor := { d.descriptor with Size := d.descriptor.Size + (p.length : Int) } })

/-- A sequence of `Write` calls, one per chunk. -/
def DescriptorWriter.WriteAll (fs : Fs) (d : DescriptorWriter) :
    List Bytes → Outcome (Fs × DescriptorWriter)
  | [] => .ok (fs, d)
  | p :: ps => (DescriptorWriter.Write fs d p).bind fun (fs1, d1) =>
      DescriptorWriter.WriteAll fs1 d1 ps

/-- `Digester.Digest()`. -/
def Digester.Digest (lib : DigestLib) (g : Digester) : Digest :=
  { Algorithm := g.alg, Encoded := lib.sum g.alg g.absorbed }

/-- `DescriptorWriter.Close()`: closes the backing file, stores the digest in the
descriptor, and calls `d.fs.Rename` to move the staging file to its blob path; the call
on a nil `d.fs` is a nil dereference. -/
def DescriptorWriter.Close (lib : DigestLib) (fs : Fs) (d : DescriptorWriter) :
    Outcome (Fs × Descriptor) :=
  if d.backingFile.closed then .error .closed
  else
    let descriptor := { d.descriptor with Digest := d.digester.Digest lib }
    match d.fs with
    | none => .panic
    | some _ =>
      (fs.Rename d.backingFile.name (blobPath descriptor.Digest)).bind fun fs1 =>
        .ok (fs1, descriptor)

/-! ## descriptorReader.go -/

/-- `NewDescriptorReaderFsDigest(fs, digest)`: opens the blob stored under the path of
the digest; the result is the content the reader will deliver. -/
def NewDescriptorReaderFsDigest (fs : Fs) (digest : Digest) : Outcome Bytes :=
  match fs (blobPath digest) with
  | none => .error .notExist
  | some n => .ok n.data

/-! ## File modes and file infos (Go `io/fs`, `syscall`) -/

/-- Bit `fs.ModeDir`. -/
def ModeDir : Nat := 2 ^ 31
/-- Bit `fs.ModeExclusive`. -/
def ModeExclusive : Nat := 2 ^ 29
/-- Bit `fs.ModeSymlink`. -/
def ModeSymlink : Nat := 2 ^ 27
/-- Bit `fs.ModeDevice`. -/
def ModeDevice : Nat := 2 ^ 26
/-- Bit `fs.ModeNamedPipe`. -/
def ModeNamedPipe : Nat := 2 ^ 25
/-- Bit `fs.ModeSocket`. -/
def ModeSocket : Nat := 2 ^ 24
/-- Bit `fs.ModeSetuid`. -/
def ModeSetuid : Nat := 2 ^ 23
/-- Bit `fs.ModeSetgid`. -/
def ModeSetgid : Nat := 2 ^ 22
/-- Bit `fs.ModeCharDevice`. -/
def ModeCharDevice : Nat := 2 ^ 21
/-- Bit `fs.ModeSticky`. -/
def ModeSticky : Nat := 2 ^ 20
/-- Bit `fs.ModeIrregular`. -/
def ModeIrregular : Nat := 2 ^ 19

/-- Mask `fs.ModeType` of the type bits. -/
def ModeType : Nat :=
  ModeDir ||| ModeSymlink ||| ModeNamedPipe ||| ModeSocket ||| ModeDevice |||
    ModeCharDevice ||| ModeIrregular

/-- Mask `fs.ModePerm` of the permission bits. -/
def ModePerm : Nat := 0o777

/-- The fields of `syscall.Stat_t` the package and `archive/tar` read. -/
structure Stat_t where
  Dev : Nat
  Ino : Nat
  Uid : Nat
  Gid : Nat
  Atim : Int
  Ctim : Int
  deriving DecidableEq, Repr

/-- An `os.FileInfo`; `Sys` is `some` when the underlying value is a `*syscall.Stat_t`. -/
structure FileInfo where
  Name : Str
  Size : Int
  Mode : Nat
  ModTime : Int
  Sys : Option Stat_t
  deriving DecidableEq, Repr

/-! ## Tar headers (Go `archive/tar`) -/

/-- Type flags of a tar header; `TypeRegA` is the zero value of the field. -/
inductive TypeFlag where
  | TypeRegA
  | TypeReg
  | TypeLink
  | TypeSymlink
  | TypeChar
  | TypeBlock
  | TypeDir
  | TypeFifo
  deriving DecidableEq, Repr

/-- Header formats. -/
inductive Format where
  | FormatUnknown
  | FormatGNU
  deriving DecidableEq, Repr

/-- The `tar.Header` fields the package reads or writes. -/
structure Header where
  Typeflag : TypeFlag
  Name : Str
  Linkname : Str
  Size : Int
  Mode : Nat
  Uid : Int
  Gid : Int
  ModTime : Int
  AccessTime : Int
  ChangeTime : Int
  Format : Format
  deriving DecidableEq, Repr

/-- The zero value `tar.Header{}`. -/
def Header.zero : Header :=
  { Typeflag := .TypeRegA, Name := [], Linkname := [], Size := 0, Mode := 0, Uid := 0,
    Gid := 0, ModTime := 0, AccessTime := 0, ChangeTime := 0, Format := .FormatUnknown }

/-- The type switch of `tar.FileInfoHeader`: type flag, size and link name for a mode,
in the order of the library's cases; sockets and unknown modes are errors. -/
def headerType (fi : FileInfo) (link : Str) : Outcome (TypeFlag × Int × Str × Str) :=
  let fm := fi.Mode
  if fm &&& ModeType = 0 then .ok (.TypeReg, fi.Size, [], fi.Name)
  else if fm &&& ModeDir ≠ 0 then .ok (.TypeDir, 0, [], fi.Name ++ ['/'])
  else if fm &&& ModeSymlink ≠ 0 then .ok (.TypeSymlink, 0, link, fi.Name)
  else if fm &&& ModeDevice ≠ 0 then
    if fm &&& ModeCharDevice ≠ 0 then .ok (.TypeChar, 0, [], fi.Name)
    else .ok (.TypeBlock, 0, [], fi.Name)
  else if fm &&& ModeNamedPipe ≠ 0 then .ok (.TypeFifo, 0, [], fi.Name)
  else .error .unknownMode

/-- The mode field `tar.FileInfoHeader` computes: permission bits, and the tar bits for
setuid, setgid and sticky. -/
def headerMode (fm : Nat) : Nat :=
  (fm &&& ModePerm) ||| (if fm &&& ModeSetuid ≠ 0 then 0o4000 else 0) |||
    (if fm &&& ModeSetgid ≠ 0 then 0o2000 else 0) |||
    (if fm &&& ModeSticky ≠ 0 then 0o1000 else 0)

/-- Go `tar.FileInfoHeader(fi, link)`. -/
def FileInfoHeader (fi : FileInfo) (link : Str) : Outcome Header :=
  (headerType fi link).bind fun (flag, size, linkname, name) =>
    .ok
      { Typeflag := flag, Name := name, Linkname := linkname, Size := size
        Mode := headerMode fi.Mode
        Uid := match fi.Sys with
          | some st => st.Uid
          | none => 0
        Gid := match fi.Sys with
          | some st => st.Gid
          | none => 0
        ModTime := fi.ModTime
        AccessTime := match fi.Sys with
          | some st => st.Atim
          | none => 0
        ChangeTime := match fi.Sys with
          | some st => st.Ctim
          | none => 0
        Format := .FormatUnknown }

/-- The regular-file header `tar.FileInfoHeader` builds for a mode without type bits. -/
def regularHeader (info : FileInfo) : Header :=
  { Typeflag := .TypeReg, Name := info.Name, Linkname := [], Size := info.Size
    Mode := headerMode info.Mode
    Uid := match info.Sys with
      | some st => st.Uid
      | none => 0
    Gid := match info.Sys with
      | some st => st.Gid
      | none => 0
    ModTime := info.ModTime
    AccessTime := match info.Sys with
      | some st => st.Atim
      | none => 0
    ChangeTime := match info.Sys with
      | some st => st.Ctim
      | none => 0
    Format := .FormatUnknown }

/-! ## The OS filesystem (`os.Open`, `os.Lstat`, `os.Readlink`) -/

/-- What the OS knows about a path: the `Lstat` result, the bytes reading the opened file
delivers (`none` when a read fails, as on a directory), and the `Readlink` result (`none`
when the path is no symlink). -/
structure OsNode where
  info : FileInfo
  data : Option Bytes
  target : Option Str
  deriving DecidableEq, Repr

/-- The OS filesystem; a path without node does not exist. -/
abbrev OsFs := Str → Option OsNode

/-- `os.Readlink(path)`. -/
def OsFs.Readlink (os : OsFs) (path : Str) : Outcome Str :=
  match os path with
  | none => .error .notExist
  | some n =>
    match n.target with
    | none => .error .readlink
    | some t => .ok t

/-! ## tar_writer.go -/

/-- Variable `whiteoutByte`: the bytes of the string `WHITEOUT`. -/
def whiteoutByte : Bytes := "WHITEOUT".toList.map Char.toNat

/-- Variable `whiteoutLen`. -/
def whiteoutLen : Int := whiteoutByte.length

/-- Variable `blacklist`. -/
def blacklist : List Str := ["dev/zconsole".toList]

/-- The struct `Devino`. -/
structure Devino where
  Dev : Nat
  Ino : Nat
  deriving DecidableEq, Repr

/-- One member written to the `tar.Writer`: a header and the payload that followed it. -/
structure TarEntry where
  hdr : Header
  payload : Bytes
  deriving DecidableEq, Repr

/-- The struct `TarWriter`. Field `archive` stands for `archiveWriter` and records, in
order, the members the `tar.Writer` has accepted; compression does not change the sequence
of members and is not represented. The map `seen` is an association list. -/
structure TarWriter where
  archive : List TarEntry
  seen : List (Devino × Str)
  symLinks : List Header
  deriving DecidableEq, Repr

/-- `NewTarWriter(compressor, writer)`: empty archive, empty map, no deferred symlink. -/
def NewTarWriter : TarWriter :=
  { archive := [], seen := [], symLinks := [] }

/-- `archiveWriter.WriteHeader(hdr)`: starts a new member. -/
def TarWriter.WriteHeader (w : TarWriter) (hdr : Header) : TarWriter :=
  { w with archive := w.archive ++ [{ hdr := hdr, payload := [] }] }

/-- Writing payload bytes to `archiveWriter` (`Write`, `io.Copy`): they extend the member
written last. -/
def TarWriter.WritePayload (w : TarWriter) (b : Bytes) : TarWriter :=
  match w.archive.reverse with
  | [] => w
  | e :: rest => { w with archive := (({ e with payload := e.payload ++ b }) :: rest).reverse }

/-- `isHeaderOnlyType` of `archive/tar`: members of these types carry no payload, and the
writer takes their size as zero. -/
def isHeaderOnlyType (flag : TypeFlag) : Bool :=
  match flag with
  | .TypeLink => true
  | .TypeSymlink => true
  | .TypeChar => true
  | .TypeBlock => true
  | .TypeDir => true
  | .TypeFifo => true
  | _ => false

/-- The type flag the `tar.Writer` works with: the zero flag is promoted to a regular
file, or to a directory when the name ends in a separator. -/
def storedFlag (hdr : Header) : TypeFlag :=
  match hdr.Typeflag with
  | .TypeRegA => if hdr.Name.getLast? = some '/' then .TypeDir else .TypeReg
  | flag => flag

/-- The number of payload bytes the `tar.Writer` still expects for the member written
last: its size less the payload written so far, and zero for a header-only member. -/
def TarWriter.missing (w : TarWriter) : Int :=
  match w.archive.getLast? with
  | none => 0
  | some e => if isHeaderOnlyType (storedFlag e.hdr) then 0 else e.hdr.Size - e.payload.length

/-- `hasNUL` of `archive/tar`: the string holds a NUL character. -/
def hasNUL (s : Str) : Bool :=
  s.contains (Char.ofNat 0)

/-- `fitsInBase256` of `archive/tar` for the eight-byte fields of a header block (mode,
uid, gid): the number can be written in base-256 encoding. -/
def fitsInBase256 (x : Int) : Bool :=
  decide (-(2 ^ 56) ≤ x) && decide (x < 2 ^ 56)

/-- The checks of `Header.allowedFormats` of `archive/tar` on a header in GNU format, the
format of every header this package writes, for the fields represented here: a file,
device or pipe name may not end in a separator, a member with payload may not have a
negative size, a name or link name may hold no NUL, and mode, uid and gid must fit their
fields. -/
def Header.allowedGNU (hdr : Header) : Bool :=
  let flag := storedFlag hdr
  !(decide (flag = .TypeReg ∨ flag = .TypeChar ∨ flag = .TypeBlock ∨ flag = .TypeFifo) &&
      decide (hdr.Name.getLast? = some '/')) &&
    !(!isHeaderOnlyType flag && decide (hdr.Size < 0)) &&
    !hasNUL hdr.Name && !hasNUL hdr.Linkname &&
    fitsInBase256 hdr.Mode && fitsInBase256 hdr.Uid && fitsInBase256 hdr.Gid

/-- The call `archiveWriter.WriteHeader(hdr)` with its error return: the writer refuses
the header while payload bytes of the previous member are missing, and refuses a header
that fails the checks of `Header.allowedFormats`; otherwise the member is started. Errors
of the underlying `io.Writer` are not represented. -/
def TarWriter.WriteHeaderChecked (w : TarWriter) (hdr : Header) : Outcome TarWriter :=
  if 0 < w.missing then .error .missedWriting
  else if !hdr.allowedGNU then .error .headerError
  else .ok (w.WriteHeader hdr)

/-- Writing payload to `archiveWriter` (`Write`, `io.Copy`) with its error return: more
bytes than the member still expects are `ErrWriteTooLong`. -/
def TarWriter.WritePayloadChecked (w : TarWriter) (b : Bytes) : Outcome TarWriter :=
  if w.missing < (b.length : Int) then .error .writeTooLong else .ok (w.WritePayload b)

/-- `TarWriter.WhiteoutFile(name)`; `now` is the value of `time.Now()`. -/
def TarWriter.WhiteoutFile (now : Int) (w : TarWriter) (name : Str) : Outcome TarWriter :=
  let whName := Join [Dir name, ".wh.".toList ++ Base name]
  let hdr : Header :=
    { Header.zero with
      Size := whiteoutLen, Name := whName, Format := .FormatGNU, Uid := 0, Gid := 0
      Mode := 0o222, ModTime := now, AccessTime := now, ChangeTime := now }
  (w.WriteHeaderChecked hdr).bind fun w1 => w1.WritePayloadChecked whiteoutByte

/-- The first statement of `AddEntry`: one leading separator is cut off the image path. -/
def trimSlash (inImagePath : Str) : Str :=
  match inImagePath with
  | '/' :: rest => rest
  | p => p

/-- `TarWriter.AddEntry(realPath, inImagePath, info, whiteout)`. -/
def TarWriter.AddEntry (os : OsFs) (now : Int) (w : TarWriter) (realPath inImagePath : Str)
    (info : FileInfo) (whiteout : Bool) : Outcome TarWriter :=
  let inImagePath := trimSlash inImagePath
  if blacklist.contains inImagePath then .ok w
  else
    let t := info.Mode &&& ModeType
    if t = ModeSocket ∨ t = ModeNamedPipe ∨ t = ModeSticky ∨ t = ModeExclusive then .ok w
    else if t = ModeDir then
      (FileInfoHeader info []).bind fun hdr =>
        w.WriteHeaderChecked { hdr with Name := inImagePath, Format := .FormatGNU }
    else if t = ModeDevice ∨ t = ModeCharDevice then
      (FileInfoHeader info inImagePath).bind fun hdr =>
        w.WriteHeaderChecked { hdr with Name := inImagePath, Format := .FormatGNU }
    else if t = ModeSymlink then
      (os.Readlink realPath).bind fun dstTarget =>
        (FileInfoHeader info dstTarget).bind fun hdr =>
          .ok { w with
            symLinks := w.symLinks ++ [{ hdr with Name := inImagePath, Format := .FormatGNU }] }
    else if whiteout then w.WhiteoutFile now inImagePath
    else
      match os realPath with
      | none => .error .notExist
      | some node =>
        match node.data with
        | none => .ok w
        | some [] => .ok w
        | some (b :: bs) =>
          (FileInfoHeader info []).bind fun hdr0 =>
            let r : Header × List (Devino × Str) := match info.Sys with
              | some st =>
                match w.seen.lookup { Dev := st.Dev, Ino := st.Ino } with
                | some orig =>
                  ({ hdr0 with Typeflag := .TypeLink, Linkname := orig, Size := 0 }, w.seen)
                | none => (hdr0, ({ Dev := st.Dev, Ino := st.Ino }, inImagePath) :: w.seen)
              | none => (hdr0, w.seen)
            let hdr : Header := { r.1 with Name := inImagePath, Format := .FormatGNU }
            (TarWriter.WriteHeaderChecked { w with seen := r.2 } hdr).bind fun w1 =>
              if hdr.Typeflag = .TypeReg then w1.WritePayloadChecked (b :: bs) else .ok w1

/-- `TarWriter.Close()`: the deferred symlink headers are written, in the order of the
slice, after everything else; flushing and closing add no member. The function gives the
members of the archive when every call of `Close` succeeds; its error return is not
represented. -/
def TarWriter.Close (w : TarWriter) : TarWriter :=
  w.symLinks.foldl (fun acc hdr => acc.WriteHeader hdr) w

/-- The arguments of one `AddEntry` call. -/
structure EntryArgs where
  realPath : Str
  inImagePath : Str
  info : FileInfo
  whiteout : Bool
  deriving DecidableEq, Repr

/-- A sequence of `AddEntry` calls on one writer; the first error ends it. -/
def TarWriter.AddEntries (os : OsFs) (now : Int) : TarWriter → List EntryArgs → Outcome TarWriter
  | w, [] => .ok w
  | w, c :: rest =>
    (w.AddEntry os now c.realPath c.inImagePath c.info c.whiteout).bind fun w1 =>
      TarWriter.AddEntries os now w1 rest

/-- The device-inode key `AddEntry` computes from a file info. -/
def devinoOf (info : FileInfo) : Option Devino :=
  info.Sys.map fun st => { Dev := st.Dev, Ino := st.Ino }

/-- The content `io.Copy` reads from the source file of a call. -/
def EntryArgs.content (os : OsFs) (c : EntryArgs) : Bytes :=
  match os c.realPath with
  | some node => node.data.getD []
  | none => []

/-- A call that takes the regular-file path of `AddEntry` to its end: no whiteout, a mode
without type bits, an image path off the blacklist, a `Stat_t` behind the file info, a
source file whose one-byte probe read succeeds, a file info whose size is the length
of that file, so that the `tar.Writer` receives exactly the payload the header
announces, an image path that a regular-file header can carry (no NUL, no separator at
the end), and owner and group ids that fit the header fields (every 32-bit id does). -/
def EntryArgs.plainFile (os : OsFs) (c : EntryArgs) : Bool :=
  !c.whiteout && decide (c.info.Mode &&& ModeType = 0) &&
    !blacklist.contains (trimSlash c.inImagePath) && c.info.Sys.isSome &&
    (match os c.realPath with
      | some node =>
        match node.data with
        | some (_ :: _) => true
        | _ => false
      | none => false) &&
    decide (c.info.Size = ((c.content os).length : Int)) &&
    !hasNUL (trimSlash c.inImagePath) &&
    decide ((trimSlash c.inImagePath).getLast? ≠ some '/') &&
    (match c.info.Sys with
      | some st => fitsInBase256 st.Uid && fitsInBase256 st.Gid
      | none => true)

/-- The hardlink rule as the specification words it, for one session of calls: as many
members as calls, member `i` named by the image path of call `i`; when no earlier call has
the same device-inode key it is a regular-file header followed by the content, otherwise a
hardlink header of size zero without payload whose link name is the image path of the
first call with that key. -/
def hardlinkRule (os : OsFs) (now : Int) (calls : List EntryArgs) : Prop :=
  ∃ w, TarWriter.AddEntries os now NewTarWriter calls = .ok w ∧
    w.archive.length = calls.length ∧
    ∀ i c, calls[i]? = some c → ∃ e, w.archive[i]? = some e ∧
      e.hdr.Name = trimSlash c.inImagePath ∧
      match (calls.take i).find? (fun p => devinoOf p.info == devinoOf c.info) with
      | none => e.hdr.Typeflag = .TypeReg ∧ e.hdr.Size = c.info.Size ∧
          e.payload = c.content os
      | some first => e.hdr.Typeflag = .TypeLink ∧ e.hdr.Size = 0 ∧ e.payload = [] ∧
          e.hdr.Linkname = trimSlash first.inImagePath

/-! ## tar_reader.go -/

/-- The times `safeChtimes` reads: `time.Now()` and the package variables `minTarDate`
and `maxTarDate`. -/
structure Clock where
  now : Int
  minTarDate : Int
  maxTarDate : Int
  deriving DecidableEq, Repr

/-- `safeChtimes(targetFs, name, atime, mtime)`. -/
def safeChtimes (clock : Clock) (targetFs : Fs) (fielName : Str) (atime mtime : Int) :
    Outcome Fs :=
  let mtime := if mtime < clock.minTarDate ∨ mtime > clock.maxTarDate then clock.now else mtime
  let atime := if atime < clock.minTarDate ∨ atime > clock.maxTarDate then mtime else atime
  targetFs.Chtimes fielName atime mtime

/-- The mode of `th.FileInfo()`: permission bits of the header and the type bit of its
type flag. -/
def Header.fileMode (th : Header) : Nat :=
  (th.Mode &&& ModePerm) |||
    (match th.Typeflag with
      | .TypeDir => ModeDir
      | .TypeSymlink => ModeSymlink
      | .TypeBlock => ModeDevice
      | .TypeChar => ModeDevice ||| ModeCharDevice
      | .TypeFifo => ModeNamedPipe
      | _ => 0)

/-- `unpackDir(th, targetFs)`. -/
def unpackDir (clock : Clock) (th : Header) (targetFs : Fs) : Outcome Fs :=
  let made : Outcome Fs := match targetFs.Mkdir th.Name th.fileMode with
    | .error .exist => .ok targetFs
    | r => r
  made.bind fun fs1 =>
    (fs1.Chown th.Name th.Uid th.Gid).bind fun fs2 =>
      safeChtimes clock fs2 th.Name th.AccessTime th.ModTime

/-- `unpackFile(th, tr, targetFs)`; `payload` is what the archive reader delivers for the
member. -/
def unpackFile (clock : Clock) (th : Header) (payload : Bytes) (targetFs : Fs) : Outcome Fs :=
  (targetFs.Create th.Name).bind fun fs0 =>
    (File.Write fs0 { name := th.Name, closed := false } payload).bind fun fs1 =>
      (fs1.Chmod th.Name th.fileMode).bind fun fs2 =>
        (fs2.Chown th.Name th.Uid th.Gid).bind fun fs3 =>
          safeChtimes clock fs3 th.Name th.AccessTime th.ModTime

/-- The string `.wh.` that marks a whiteout. -/
def whiteoutToken : Str := ".wh.".toList

/-- The main loop of `ExtractTreeInto` over the members the archive reader delivers;
`linker` tells whether the target filesystem implements `afero.Linker`. The result is the
target filesystem and the list of deferred symlink headers. -/
def extractMembers (clock : Clock) (linker : Bool) :
    Fs → List Header → List TarEntry → Outcome (Fs × List Header)
  | targetFs, symLinkList, [] => .ok (targetFs, symLinkList)
  | targetFs, symLinkList, e :: rest =>
    let th := e.hdr
    if Contains th.Name whiteoutToken then
      match targetFs.Remove (Replace th.Name whiteoutToken []) with
      | .ok fs1 => extractMembers clock linker fs1 symLinkList rest
      | .error .notExist => extractMembers clock linker targetFs symLinkList rest
      | .error err => .error err
      | .panic => .panic
    else
      match th.Typeflag with
      | .TypeDir =>
        (unpackDir clock th targetFs).bind fun fs1 =>
          extractMembers clock linker fs1 symLinkList rest
      | .TypeSymlink => extractMembers clock linker targetFs (symLinkList ++ [th]) rest
      | .TypeLink =>
        if linker then
          (targetFs.SymlinkIfPossible th.Linkname th.Name).bind fun fs1 =>
            extractMembers clock linker fs1 symLinkList rest
        else extractMembers clock linker targetFs symLinkList rest
      | .TypeReg =>
        (unpackFile clock th e.payload targetFs).bind fun fs1 =>
          extractMembers clock linker fs1 symLinkList rest
      | _ => extractMembers clock linker targetFs symLinkList rest

/-- The second loop of `ExtractTreeInto`: the deferred symlinks are created; a name that
is taken is removed and the link is tried once more. -/
def extractSymlinks (linker : Bool) : Fs → List Header → Outcome Fs
  | targetFs, [] => .ok targetFs
  | targetFs, th :: rest =>
    if linker then
      match targetFs.SymlinkIfPossible th.Linkname th.Name with
      | .ok fs1 => extractSymlinks linker fs1 rest
      | .error .exist =>
        match targetFs.Remove th.Name with
        | .error .notExist => extractSymlinks linker targetFs rest
        | .error err => .error err
        | .panic => .panic
        | .ok fs1 =>
          match fs1.SymlinkIfPossible th.Linkname th.Name with
          | .ok fs2 => extractSymlinks linker fs2 rest
          | .error .exist => extractSymlinks linker fs1 rest
          | .error err => .error err
          | .panic => .panic
      | .error err => .error err
      | .panic => .panic
    else extractSymlinks linker targetFs rest

/-- `TarReader.ExtractTreeInto(targetFs)` on the members the archive reader delivers. -/
def ExtractTreeInto (clock : Clock) (linker : Bool) (members : List TarEntry) (targetFs : Fs) :
    Outcome Fs :=
  (extractMembers clock linker targetFs [] members).bind fun (fs1, symLinkList) =>
    extractSymlinks linker fs1 symLinkList

/-- What `archiveReader.Next()` delivers for a member the writer wrote: `archive/tar`
stores the zero type flag as a regular file, or as a directory when the name ends in a
separator. -/
def readMember (e : TarEntry) : TarEntry :=
  match e.hdr.Typeflag with
  | .TypeRegA =>
    { e with hdr := { e.hdr with
        Typeflag := if e.hdr.Name.getLast? = some '/' then .TypeDir else .TypeReg } }
  | _ => e

/-- The archive that consists of the whiteout marker `WhiteoutFile(name)` writes, as read
back; it has no member when `WhiteoutFile` returns an error. -/
def whiteoutArchive (now : Int) (name : Str) : List TarEntry :=
  match NewTarWriter.WhiteoutFile now name with
  | .ok w => w.Close.archive.map readMember
  | _ => []

/-! ## layer_writer.go -/

/-- Constant `specsv1.MediaTypeImageLayerGzip`. -/
def MediaTypeImageLayerGzip : Str := "application/vnd.oci.image.layer.v1.tar+gzip".toList

/-- The struct `LayerWriter`: the blob writer and the archive writer stacked on it. -/
structure LayerWriter where
  descF : DescriptorWriter
  archiveWriter : TarWriter
  deriving DecidableEq, Repr

/-- `Image.NewLayerWriter(algorithm)` on the image filesystem. -/
def NewLayerWriter (lib : DigestLib) (fs : Fs) (algorithm rnd : Str) :
    Outcome (Fs × LayerWriter) :=
  (NewDescriptorWriterFs lib fs "/".toList MediaTypeImageLayerGzip algorithm none rnd).bind
    fun (fs1, descWr) => .ok (fs1, { descF := descWr, archiveWriter := NewTarWriter })

/-- `LayerWriter.AddEntry`: forwards to the archive writer. -/
def LayerWriter.AddEntry (os : OsFs) (now : Int) (l : LayerWriter) (realPath inImagePath : Str)
    (info : FileInfo) (whiteout : Bool) : Outcome LayerWriter :=
  (l.archiveWriter.AddEntry os now realPath inImagePath info whiteout).bind fun w =>
    .ok { l with archiveWriter := w }

/-- `LayerWriter.Close()`: closes the archive writer, which sends the encoded archive
through the blob writer, then closes the blob writer. `encode` is the serialisation of the
members by `archive/tar` and `compress/gzip`. -/
def LayerWriter.Close (lib : DigestLib) (encode : List TarEntry → Bytes) (fs : Fs)
    (l : LayerWriter) : Outcome (Fs × Descriptor) :=
  (DescriptorWriter.Write fs l.descF (encode l.archiveWriter.Close.archive)).bind
    fun (fs1, d1) => DescriptorWriter.Close lib fs1 d1

/-! ## image.go -/

/-- The `specsv1.Manifest` fields the package uses. -/
structure Manifest where
  Config : Descriptor
  Layers : List Descriptor
  Annotations : List (Str × Str)
  deriving DecidableEq, Repr

/-- A `specsv1.History` entry. -/
structure History where
  CreatedBy : Str
  Comment : Str
  deriving DecidableEq, Repr

/-- The struct `specsv1.RootFS`; `TypeName` is its field `Type`. -/
structure RootFS where
  TypeName : Str
  DiffIDs : List Digest
  deriving DecidableEq, Repr

/-- The `specsv1.Image` fields the package uses. -/
structure ImageConfig where
  History : List History
  RootFS : RootFS
  deriving DecidableEq, Repr

/-- The struct `Image`; its filesystem is threaded through the calls. -/
structure Image where
  manifest : Manifest
  Config : ImageConfig
  deriving DecidableEq, Repr

/-- `ImageLayout.CreateImage(reference)`. -/
def CreateImage (reference : Str) : Image :=
  { manifest :=
      { Config := Descriptor.zero, Layers := []
        Annotations := [("org.opencontainers.image.ref.name".toList, reference)] }
    Config := { History := [], RootFS := { TypeName := "rootfs".toList, DiffIDs := [] } } }

/-- `Image.AddLayerDescriptors(l)`: `append(l, img.manifest.Layers...)` puts `l` in front
of the layers, the loop appends the digests of `l` to the DiffIDs. -/
def Image.AddLayerDescriptors (img : Image) (l : List Descriptor) : Image :=
  { img with
    manifest := { img.manifest with Layers := l ++ img.manifest.Layers }
    Config := { img.Config with
      RootFS := { img.Config.RootFS with
        DiffIDs := img.Config.RootFS.DiffIDs ++ l.map (fun descr => descr.Digest) } } }

/-- The three statements that end `AddLayerFile`, `AddTree` and `AddDiff`: the layer
descriptor, its digest and the history entry are appended. -/
def Image.appendLayer (img : Image) (descr : Descriptor) (h : History) : Image :=
  { img with
    manifest := { img.manifest with Layers := img.manifest.Layers ++ [descr] }
    Config :=
      { History := img.Config.History ++ [h]
        RootFS := { img.Config.RootFS with
          DiffIDs := img.Config.RootFS.DiffIDs ++ [descr.Digest] } } }

/-- `Image.AddLayerFile(origPath, mediaType, h)`; `io.Copy` hands the file content to the
blob writer. -/
def Image.AddLayerFile (lib : DigestLib) (os : OsFs) (fs : Fs) (img : Image)
    (origPath mediaType : Str) (h : History) (rnd : Str) : Outcome (Fs × Image) :=
  match os origPath with
  | none => .error .notExist
  | some node =>
    (NewDescriptorWriterFs lib fs "/".toList mediaType Canonical none rnd).bind
      fun (fs1, descWr) =>
        match node.data with
        | none => .error .other
        | some data =>
          (DescriptorWriter.Write fs1 descWr data).bind fun (fs2, d2) =>
            (DescriptorWriter.Close lib fs2 d2).bind fun (fs3, descr) =>
              .ok (fs3, img.appendLayer descr h)

/-- The callback of the first walk of `AddDiff`, over the tree under `layer1RootPath`. -/
def AddDiff.visitA (os : OsFs) (now : Int) (layer1RootPath layer2RootPath : Str)
    (layer : TarWriter) (path : Str) (info : FileInfo) : Outcome TarWriter :=
  let inImagePath := Replace path (layer1RootPath ++ ['/']) []
  if path = inImagePath then .ok layer
  else
    let l2Path := Replace path layer1RootPath layer2RootPath
    match os l2Path with
    | none => layer.AddEntry os now path inImagePath info true
    | some l2node =>
      let newstat := l2node.info
      let t := info.Mode &&& ModeType
      if t = ModeSocket ∨ t = ModeNamedPipe ∨ t = ModeSticky ∨ t = ModeExclusive then .ok layer
      else if t = ModeSymlink then
        let l1dstTarget := match os.Readlink path with
          | .ok target => target
          | _ => []
        let l2dstTarget := match os.Readlink l2Path with
          | .ok target => target
          | _ => []
        if l2dstTarget ≠ l1dstTarget then layer.AddEntry os now path inImagePath info false
        else .ok layer
      else
        let l1md := info.Mode &&& ModePerm
        let l2md := newstat.Mode &&& ModePerm
        match info.Sys with
        | none => .panic
        | some l1Stat =>
          let l2Stat := l1Stat
          if l1md ≠ l2md ∨ l1Stat.Uid ≠ l2Stat.Uid ∨ l1Stat.Gid ≠ l2Stat.Gid ∨
              info.Size ≠ newstat.Size then
            layer.AddEntry os now path inImagePath info false
          else .ok layer

/-- The callback of the second walk of `AddDiff`, over the tree under `layer2RootPath`. -/
def AddDiff.visitB (os : OsFs) (now : Int) (layer1RootPath layer2RootPath : Str)
    (layer : TarWriter) (path : Str) (info : FileInfo) : Outcome TarWriter :=
  let inImagePath := Replace path (layer2RootPath ++ ['/']) []
  if path = inImagePath then .ok layer
  else
    let l1Path := Replace path layer2RootPath layer1RootPath
    match os l1Path with
    | none => layer.AddEntry os now path inImagePath info false
    | some _ => .ok layer

/-- A walk (`afero.Walk`): the callback is run on the `(path, info)` pairs the walker
yields, in order, until it returns an error. -/
def walkWith (visit : TarWriter → Str → FileInfo → Outcome TarWriter) :
    TarWriter → List (Str × FileInfo) → Outcome TarWriter
  | layer, [] => .ok layer
  | layer, (path, info) :: rest => (visit layer path info).bind fun l1 => walkWith visit l1 rest

/-- The two walks of `AddDiff` on a new layer writer: the state of the archive writer when
`layer.Close()` is reached. -/
def AddDiff.walks (os : OsFs) (now : Int) (layer1RootPath layer2RootPath : Str)
    (walkA walkB : List (Str × FileInfo)) : Outcome TarWriter :=
  (walkWith (AddDiff.visitA os now layer1RootPath layer2RootPath) NewTarWriter walkA).bind
    fun l1 => walkWith (AddDiff.visitB os now layer1RootPath layer2RootPath) l1 walkB

/-- The members `AddDiff` has put into the layer archive once the archive writer is
closed. -/
def AddDiff.members (os : OsFs) (now : Int) (layer1RootPath layer2RootPath : Str)
    (walkA walkB : List (Str × FileInfo)) : Outcome (List TarEntry) :=
  (AddDiff.walks os now layer1RootPath layer2RootPath walkA walkB).bind fun l =>
    .ok l.Close.archive

/-- `Image.AddDiff(layerFs1, layerFs2, layer1RootPath, layer2RootPath, h)`; `walkA` and
`walkB` are what the walks over the two layer filesystems yield. -/
def Image.AddDiff (lib : DigestLib) (encode : List TarEntry → Bytes) (os : OsFs) (now : Int)
    (fs : Fs) (img : Image) (walkA walkB : List (Str × FileInfo))
    (layer1RootPath layer2RootPath : Str) (h : History) (rnd : Str) : Outcome (Fs × Image) :=
  (NewLayerWriter lib fs Canonical rnd).bind fun (fs1, layer) =>
    (AddDiff.walks os now layer1RootPath layer2RootPath walkA walkB).bind fun w =>
      (LayerWriter.Close lib encode fs1 { layer with archiveWriter := w }).bind
        fun (fs2, descr) => .ok (fs2, img.appendLayer descr h)

/-! ## layer_reader.go -/

/-- The type `ArchiveCompressor`. -/
inductive ArchiveCompressor where
  | ArchiveCompressorNone
  | ArchiveCompressorGzip
  deriving DecidableEq, Repr

/-- The struct `TarReader`: the name of the backing file, the compressor, and the bytes
of the backing file the archive reader is set on. -/
structure TarReader where
  backingFile : Str
  compressor : ArchiveCompressor
  stream : Bytes
  deriving DecidableEq, Repr

/-- `NewTarReader(compressor, fs, fName)`; `fsOpen` is the `Open` of the filesystem
passed in, `isGzip` tells whether `gzip.NewReader` accepts the header of the bytes. -/
def NewTarReader (isGzip : Bytes → Bool) (compressor : ArchiveCompressor)
    (fsOpen : Str → Outcome FsNode) (fName : Str) : Outcome TarReader :=
  (fsOpen fName).bind fun f =>
    match compressor with
    | .ArchiveCompressorNone =>
      .ok { backingFile := fName, compressor := compressor, stream := f.data }
    | .ArchiveCompressorGzip =>
      if isGzip f.data then
        .ok { backingFile := fName, compressor := compressor, stream := f.data }
      else .error .gzipHeader

/-- The struct `LayerReader`. -/
structure LayerReader where
  digest : Digest
  archiveReader : TarReader
  deriving DecidableEq, Repr

/-- `NewLayerReader(fs, layer)`: the compressor follows the media type, and the blob is
opened under the name `Encoded()` on `afero.NewBasePathFs(fs, Algorithm())`. -/
def NewLayerReader (isGzip : Bytes → Bool) (fs : Fs) (layer : Descriptor) :
    Outcome LayerReader :=
  let compressor :=
    if Contains layer.MediaType "gzip".toList || Contains layer.MediaType "gz".toList then
      ArchiveCompressor.ArchiveCompressorGzip
    else ArchiveCompressor.ArchiveCompressorNone
  (NewTarReader isGzip compressor
      (BasePathFs.Open { source := fs, path := layer.Digest.Algorithm })
      layer.Digest.Encoded).bind fun r =>
    .ok { digest := layer.Digest, archiveReader := r }

/-! ## imageLayout.go -/

/-- Constant `imageIndexEntrypointFileName`. -/
def imageIndexEntrypointFileName : Str := "index.json".toList

/-- Constant `specsv1.ImageLayoutFile`. -/
def ImageLayoutFile : Str := "oci-layout".toList

/-- The `encoding/json` calls of the package on the two documents of a layout: the
encoding of the initial `specsv1.ImageLayout` and `specsv1.Index` values, and whether the
decoder accepts given bytes for an `Index` and for an `ImageLayout`. -/
structure JsonLib where
  layoutDoc : Bytes
  indexDoc : Bytes
  decodesIndex : Bytes → Bool
  decodesLayout : Bytes → Bool

/-- The struct `ImageLayout`: both documents as the bytes they were written as or read
from, and the base path of its filesystem. -/
structure ImageLayout where
  layout : Bytes
  index : Bytes
  fsBase : Str
  deriving DecidableEq, Repr

/-- Opening a file and decoding it with `json.NewDecoder(file).Decode`: a missing file, a
directory, or bytes the decoder rejects give the error of `openImageLayout`. -/
def decodeFile (repoFs : Fs) (path : Str) (accepts : Bytes → Bool) : Outcome Bytes :=
  match repoFs path with
  | none => .error .layoutUnreadable
  | some f => if !f.isDir && accepts f.data then .ok f.data else .error .layoutUnreadable

/-- `openImageLayout(repoFs, name)`: the index is decoded from `index.json`, the layout
from the file opened second, which is `index.json` again, and the blobs directory has to
exist. -/
def openImageLayout (json : JsonLib) (repoFs : Fs) (name : Str) : Outcome ImageLayout :=
  (decodeFile repoFs (Join [name, imageIndexEntrypointFileName]) json.decodesIndex).bind
    fun index =>
      (decodeFile repoFs (Join [name, imageIndexEntrypointFileName]) json.decodesLayout).bind
        fun layout =>
          if afero.DirExists repoFs (Join [name, blobsDirectory]) then
            .ok { layout := layout, index := index, fsBase := name }
          else .error .layoutUnreadable

/-- `createImageLayout(repoFs, name)`. -/
def createImageLayout (json : JsonLib) (repoFs : Fs) (name : Str) :
    Outcome (Fs × ImageLayout) :=
  if [name, Join [name, ImageLayoutFile], Join [name, imageIndexEntrypointFileName],
      Join [name, blobsDirectory]].any (fun path => afero.Exists repoFs path) then
    .error .layoutExists
  else
    (repoFs.Mkdir name 0o755).bind fun fs1 =>
      (fs1.Create (Join [name, ImageLayoutFile])).bind fun fs2 =>
        (File.Write fs2 { name := Join [name, ImageLayoutFile], closed := false }
            json.layoutDoc).bind fun fs3 =>
          (fs3.Create (Join [name, imageIndexEntrypointFileName])).bind fun fs4 =>
            (File.Write fs4 { name := Join [name, imageIndexEntrypointFileName], closed := false }
                json.indexDoc).bind fun fs5 =>
              (fs5.Mkdir (Join [name, blobsDirectory]) 0o755).bind fun fs6 =>
                .ok (fs6, { layout := json.layoutDoc, index := json.indexDoc, fsBase := name })

/-! ## repository.go -/

/-- The struct `Repository`: the base path of its `BasePathFs`. -/
structure Repository where
  path : Str
  deriving DecidableEq, Repr

/-- The filesystem `afero.NewOsFs()`: the OS filesystem behind the afero interface. -/
def OsFs.asAfero (os : OsFs) : Fs := fun p =>
  (os p).map fun n =>
    { isDir := decide (n.info.Mode &&& ModeDir ≠ 0), data := n.data.getD []
      mode := n.info.Mode &&& ModePerm
      uid := match n.info.Sys with
        | some st => st.Uid
        | none => 0
      gid := match n.info.Sys with
        | some st => st.Gid
        | none => 0
      atime := match n.info.Sys with
        | some st => st.Atim
        | none => 0
      mtime := n.info.ModTime, link := n.target }

/-- `IsRepositoryFs(fs, path)`. -/
def IsRepositoryFs (fs : Fs) (path : Str) : Bool :=
  afero.DirExists fs path

/-- `IsRepository(path)`: asks the OS filesystem. -/
def IsRepository (os : OsFs) (path : Str) : Bool :=
  IsRepositoryFs os.asAfero path

/-- `CreateRepositoryFS(fs, path)`: the existence check is `IsRepository(path)`, the
directory is made on `fs`. -/
def CreateRepositoryFS (os : OsFs) (fs : Fs) (path : Str) : Outcome (Fs × Repository) :=
  if IsRepository os path then .error .repoExists
  else (fs.MkdirAll path 0o755).bind fun fs1 => .ok (fs1, { path := path })

/-- `OpenRepositoryFS(fs, path)`: the existence check is `IsRepository(path)`. -/
def OpenRepositoryFS (os : OsFs) (fs : Fs) (path : Str) : Outcome (Fs × Repository) :=
  if !IsRepository os path then .error .noRepository
  else .ok (fs, { path := path })

/-- `Repository.OpenImageLayout(name)` on the repository filesystem. -/
def OpenImageLayout (json : JsonLib) (repoFs : Fs) (name : Str) : Outcome ImageLayout :=
  openImageLayout json repoFs name

/-- `Repository.CreateImageLayout(name)` on the repository filesystem. -/
def CreateImageLayout (json : JsonLib) (repoFs : Fs) (name : Str) :
    Outcome (Fs × ImageLayout) :=
  createImageLayout json repoFs name

/-- `Repository.HasImageLayout(name)`. -/
def HasImageLayout (repoFs : Fs) (name : Str) : Bool :=
  afero.Exists repoFs (Join [name, ImageLayoutFile])

/-- `Repository.IsImageLayoutConsistent(name)`. -/
def IsImageLayoutConsistent (json : JsonLib) (repoFs : Fs) (name : Str) : Bool :=
  match openImageLayout json repoFs name with
  | .ok _ => true
  | _ => false

/-- The writer state of one session just before `Close`: `NewDescriptorWriterFs`
followed by one `Write` per chunk. -/
def writeChunks (lib : DigestLib) (fs : Fs) (path mediaType alg : Str)
    (plat : Option Platform) (rnd : Str) (chunks : List Bytes) :
    Outcome (Fs × DescriptorWriter) :=
  (NewDescriptorWriterFs lib fs path mediaType alg plat rnd).bind fun (fs1, d) =>
    DescriptorWriter.WriteAll fs1 d chunks

/-- One whole writer session: `NewDescriptorWriterFs`, one `Write` per chunk, `Close`. -/
def writeSession (lib : DigestLib) (fs : Fs) (path mediaType alg : Str)
    (plat : Option Platform) (rnd : Str) (chunks : List Bytes) : Outcome (Fs × Descriptor) :=
  (writeChunks lib fs path mediaType alg plat rnd chunks).bind fun (fs1, d) =>
    DescriptorWriter.Close lib fs1 d

/-- A digest library for evaluating the model: every algorithm is available and the
"hash" of a byte sequence spells out its bytes. -/
def sampleLib : DigestLib :=
  { available := fun _ => true
    sum := fun _ b => b.map Char.ofNat }

/-- The filesystem without any node. -/
def emptyFs : Fs := fun _ => none

/-- A `Stat_t` of device 1 with the given inode, owner and group. -/
def sampleStat (ino uid gid : Nat) : Stat_t :=
  { Dev := 1, Ino := ino, Uid := uid, Gid := gid, Atim := 1600000000, Ctim := 1600000000 }

/-- File info of a regular file with mode 0644. -/
def sampleReg (name : String) (size : Int) (ino : Nat) : FileInfo :=
  { Name := name.toList, Size := size, Mode := 0o644, ModTime := 1600000000
    Sys := some (sampleStat ino 0 0) }

/-- File info of a directory with mode 0755. -/
def sampleDir (name : String) (ino : Nat) : FileInfo :=
  { Name := name.toList, Size := 0, Mode := ModeDir ||| 0o755, ModTime := 1600000000
    Sys := some (sampleStat ino 0 0) }

/-- File info of a symlink. -/
def sampleLink (name : String) (ino : Nat) : FileInfo :=
  { Name := name.toList, Size := 0, Mode := ModeSymlink ||| 0o777, ModTime := 1600000000
    Sys := some (sampleStat ino 0 0) }

/-- An OS tree under `/s`: `a`, `b` and `zconsole` are names of one two-byte file (inode
7), `c` is another file (inode 8), `d` a directory, `l` a symlink to `a`. -/
def sampleOs : OsFs := fun p =>
  if p = "/s/a".toList then some ⟨sampleReg "a" 2 7, some [1, 2], none⟩
  else if p = "/s/b".toList then some ⟨sampleReg "b" 2 7, some [1, 2], none⟩
  else if p = "/s/zconsole".toList then some ⟨sampleReg "zconsole" 2 7, some [1, 2], none⟩
  else if p = "/s/c".toList then some ⟨sampleReg "c" 1 8, some [3], none⟩
  else if p = "/s/d".toList then some ⟨sampleDir "d" 9, none, none⟩
  else if p = "/s/l".toList then some ⟨sampleLink "l" 10, none, some "a".toList⟩
  else none

/-- An `AddEntry` call without whiteout. -/
def sampleCall (realPath inImagePath : String) (info : FileInfo) : EntryArgs :=
  { realPath := realPath.toList, inImagePath := inImagePath.toList, info := info
    whiteout := false }

/-- The OS filesystem that holds the listed nodes and nothing else. -/
def OsFs.ofList (nodes : List (String × OsNode)) : OsFs := fun p =>
  (nodes.find? (fun e => e.1.toList == p)).map (fun e => e.2)

/-- File info of a regular file with the given permission bits, owner and group. -/
def sampleFile (name : String) (size : Int) (perm ino uid gid : Nat) : FileInfo :=
  { Name := name.toList, Size := size, Mode := perm, ModTime := 1600000000
    Sys := some (sampleStat ino uid gid) }

/-- Pairs of trees for the diff engine. Under `/ta` and `/tb`: `f1` differs in the owner
only. Under `/ua` and `/ub`: `f1` differs in the group only. Under `/va` and `/vb`: `f1`
has two bytes on the old side and three other bytes on the new side. Under `/wa` and
`/wb`: a directory `d` and a symlink `l` exist on the old side only. -/
def diffOs : OsFs := OsFs.ofList
  [("/ta", ⟨sampleDir "ta" 20, none, none⟩),
    ("/ta/f1", ⟨sampleFile "f1" 2 0o644 21 0 0, some [1, 2], none⟩),
    ("/tb", ⟨sampleDir "tb" 22, none, none⟩),
    ("/tb/f1", ⟨sampleFile "f1" 2 0o644 23 1000 0, some [1, 2], none⟩),
    ("/ua", ⟨sampleDir "ua" 30, none, none⟩),
    ("/ua/f1", ⟨sampleFile "f1" 2 0o644 31 0 0, some [1, 2], none⟩),
    ("/ub", ⟨sampleDir "ub" 32, none, none⟩),
    ("/ub/f1", ⟨sampleFile "f1" 2 0o644 33 0 100, some [1, 2], none⟩),
    ("/va", ⟨sampleDir "va" 40, none, none⟩),
    ("/va/f1", ⟨sampleFile "f1" 2 0o644 41 0 0, some [1, 2], none⟩),
    ("/vb", ⟨sampleDir "vb" 42, none, none⟩),
    ("/vb/f1", ⟨sampleFile "f1" 3 0o644 43 0 0, some [9, 9, 9], none⟩),
    ("/wa", ⟨sampleDir "wa" 50, none, none⟩),
    ("/wa/d", ⟨sampleDir "d" 51, none, none⟩),
    ("/wa/l", ⟨sampleLink "l" 52, none, some "d".toList⟩),
    ("/wb", ⟨sampleDir "wb" 53, none, none⟩)]

/-- What a walk over the listed paths of `diffOs` yields: each path with its `Lstat`
info. -/
def diffWalk (paths : List String) : List (Str × FileInfo) :=
  paths.filterMap fun p => (diffOs p.toList).map fun n => (p.toList, n.info)

/-- A layer descriptor with the given hex digest. -/
def sampleDescriptor (hex : String) : Descriptor :=
  { MediaType := MediaTypeImageLayerGzip, Digest := ⟨Canonical, hex.toList⟩, Size := 1
    Platform := none }

/-- The invariant between manifest and config: as many layers as DiffIDs, and the digest
of layer `i` is DiffID `i`. -/
def Image.layersMirrorDiffIDs (img : Image) : Prop :=
  img.manifest.Layers.map (fun descr => descr.Digest) = img.Config.RootFS.DiffIDs

/-- A target filesystem for extraction: directory `a` with the files `a/b.txt`,
`a/x.wh.y` and `a/xy`. -/
def sampleTarget : Fs := fun p =>
  if p = "a".toList then some { emptyFile 0o755 with isDir := true }
  else if p = "a/b.txt".toList then some { emptyFile 0o644 with data := [1] }
  else if p = "a/x.wh.y".toList then some { emptyFile 0o644 with data := [2] }
  else if p = "a/xy".toList then some { emptyFile 0o644 with data := [3] }
  else none

/-- A clock: the window opens in 1910 and closes 7000 seconds after start-up. -/
def sampleClock : Clock :=
  { now := 1700000000, minTarDate := -1893455999, maxTarDate := 1700007000 }

/-- An image filesystem that holds one gzip layer blob where the blob writer publishes
it, under `blobs/sha256/abc`. -/
def publishedFs : Fs :=
  emptyFs.put (blobPath { Algorithm := Canonical, Encoded := "abc".toList })
    { emptyFile 0o600 with data := [31, 139, 8] }

/-- A JSON library for evaluating the model: the documents are spelled out, and the
decoder accepts every text that starts with an opening brace, for either struct. -/
def sampleJson : JsonLib :=
  { layoutDoc := "\x7b\"imageLayoutVersion\":\"1.0.0\"\x7d".toList.map Char.toNat
    indexDoc := "\x7b\"schemaVersion\":2\x7d".toList.map Char.toNat
    decodesIndex := fun b => b.head? == some 123
    decodesLayout := fun b => b.head? == some 123 }

/-- The in-memory filesystem after a repository directory `/test` has been made on it. -/
def sampleRepoFs : Fs :=
  emptyFs.put "/test".toList { emptyFile 0o755 with isDir := true }

/-- The repository filesystem after `CreateImageLayout` has made the layout `testing` on
the empty filesystem. -/
def sampleLayoutFs : Fs :=
  match CreateImageLayout sampleJson emptyFs "testing".toList with
  | .ok (fs1, _) => fs1
  | _ => emptyFs

/-- File info with the given mode bits. -/
def sampleInfo (name : String) (size : Int) (mode ino : Nat) : FileInfo :=
  { Name := name.toList, Size := size, Mode := mode, ModTime := 1600000000
    Sys := some (sampleStat ino 0 0) }

/-- An OS tree with special entries: the zero-length regular file `/s/empty`, the
character devices `/dev/null` (a read is at end of file at once) and `/dev/zero` (a read
delivers a zero byte), the block device `/dev/sda`, the sticky directory `/tmp`, and the
regular file `/s/excl` whose mode has the exclusive bit. -/
def specialOs : OsFs := OsFs.ofList
  [("/s/empty", ⟨sampleInfo "empty" 0 0o644 60, some [], none⟩),
    ("/dev/null", ⟨sampleInfo "null" 0 (ModeDevice ||| ModeCharDevice ||| 0o666) 61,
      some [], none⟩),
    ("/dev/zero", ⟨sampleInfo "zero" 0 (ModeDevice ||| ModeCharDevice ||| 0o666) 62,
      some [0], none⟩),
    ("/dev/sda", ⟨sampleInfo "sda" 0 (ModeDevice ||| 0o660) 63, some [7], none⟩),
    ("/tmp", ⟨sampleInfo "tmp" 0 (ModeDir ||| ModeSticky ||| 0o777) 64, none, none⟩),
    ("/s/excl", ⟨sampleInfo "excl" 1 (ModeExclusive ||| 0o644) 65, some [5], none⟩)]

/-! # Theorems -/

/-- A sequence of two calls succeeds exactly when both do. -/
theorem Outcome.bind_eq_ok {α β : Type} {x : Outcome α} {f : α → Outcome β} {b : β} :
    x.bind f = .ok b ↔ ∃ a, x = .ok a ∧ f a = .ok b := by
  cases x <;> simp [Outcome.bind]

/-! ## Blob store -/

/-- A successful `Write` leaves the backing file handle, the `fs` field, the media type
and the algorithm alone, feeds the chunk to the hash and adds its length to the size. -/
theorem DescriptorWriter.Write_ok {fs fs1 : Fs} {d d1 : DescriptorWriter} {p : Bytes}
    (h : DescriptorWriter.Write fs d p = .ok (fs1, d1)) :
    d1.fs = d.fs ∧ d1.backingFile = d.backingFile ∧ d1.digester.alg = d.digester.alg ∧
      d1.digester.absorbed = d.digester.absorbed ++ p ∧
      d1.descriptor.Size = d.descriptor.Size + (p.length : Int) ∧
      d1.descriptor.MediaType = d.descriptor.MediaType := by
  unfold DescriptorWriter.Write at h
  cases hw : File.Write fs d.backingFile p with
  | ok fs2 =>
    rw [hw] at h
    simp only [Outcome.bind, Outcome.ok.injEq, Prod.mk.injEq] at h
    obtain ⟨-, rfl⟩ := h
    simp
  | error e => rw [hw] at h; simp [Outcome.bind] at h
  | panic => rw [hw] at h; simp [Outcome.bind] at h

/-- Accounting over a whole sequence of successful `Write` calls: whatever the chunking,
the hash has absorbed the concatenation of the chunks and the size has grown by its
length. -/
theorem DescriptorWriter.WriteAll_ok (chunks : List Bytes) :
    ∀ {fs fs1 : Fs} {d d1 : DescriptorWriter},
      DescriptorWriter.WriteAll fs d chunks = .ok (fs1, d1) →
      d1.fs = d.fs ∧ d1.backingFile = d.backingFile ∧ d1.digester.alg = d.digester.alg ∧
        d1.digester.absorbed = d.digester.absorbed ++ chunks.flatten ∧
        d1.descriptor.Size = d.descriptor.Size + (chunks.flatten.length : Int) ∧
        d1.descriptor.MediaType = d.descriptor.MediaType := by
  induction chunks with
  | nil =>
    intro fs fs1 d d1 h
    simp only [DescriptorWriter.WriteAll, Outcome.ok.injEq, Prod.mk.injEq] at h
    obtain ⟨-, rfl⟩ := h
    simp
  | cons p ps ih =>
    intro fs fs1 d d1 h
    unfold DescriptorWriter.WriteAll at h
    cases hw : DescriptorWriter.Write fs d p with
    | ok r =>
      obtain ⟨fs2, d2⟩ := r
      rw [hw] at h
      simp only [Outcome.bind] at h
      obtain ⟨a1, a2, a3, a4, a5, a6⟩ := DescriptorWriter.Write_ok hw
      obtain ⟨b1, b2, b3, b4, b5, b6⟩ := ih h
      refine ⟨b1.trans a1, b2.trans a2, b3.trans a3, ?_, ?_, b6.trans a6⟩
      · rw [b4, a4]; simp
      · rw [b5, a5]; simp; omega
    | error e => rw [hw] at h; simp [Outcome.bind] at h
    | panic => rw [hw] at h; simp [Outcome.bind] at h

/-- The writer that `NewDescriptorWriterFs` returns: open staging file, fresh digester,
size zero, and a nil `fs`. -/
theorem NewDescriptorWriterFs_ok {lib : DigestLib} {fs fs1 : Fs} {path mediaType alg : Str}
    {plat : Option Platform} {rnd : Str} {d : DescriptorWriter}
    (h : NewDescriptorWriterFs lib fs path mediaType alg plat rnd = .ok (fs1, d)) :
    d.fs = none ∧ d.backingFile.closed = false ∧ d.digester.absorbed = [] ∧
      d.descriptor.Size = 0 ∧
      d.digester.alg = (if lib.available alg then alg else Canonical) := by
  unfold NewDescriptorWriterFs at h
  cases ht : TempFile fs path rnd with
  | ok r =>
    obtain ⟨fs2, name⟩ := r
    rw [ht] at h
    simp only [Outcome.bind, Outcome.ok.injEq, Prod.mk.injEq] at h
    obtain ⟨-, rfl⟩ := h
    simp [Descriptor.zero]
  | error e => rw [ht] at h; simp [Outcome.bind] at h
  | panic => rw [ht] at h; simp [Outcome.bind] at h

/-- On an open backing file that exists, every sequence of `Write` calls succeeds. -/
theorem DescriptorWriter.WriteAll_total (chunks : List Bytes) :
    ∀ (fs : Fs) (d : DescriptorWriter), d.backingFile.closed = false →
      (fs d.backingFile.name).isSome = true →
      ∃ fs1 d1, DescriptorWriter.WriteAll fs d chunks = .ok (fs1, d1) := by
  induction chunks with
  | nil => intro fs d _ _; exact ⟨fs, d, rfl⟩
  | cons p ps ih =>
    intro fs d hc hex
    obtain ⟨n, hn⟩ := Option.isSome_iff_exists.mp hex
    have hw : DescriptorWriter.Write fs d p = .ok
        (fs.put d.backingFile.name { n with data := n.data ++ p },
          { d with
            digester := { d.digester with absorbed := d.digester.absorbed ++ p }
            descriptor := { d.descriptor with Size := d.descriptor.Size + (p.length : Int) } }) := by
      simp [DescriptorWriter.Write, File.Write, hc, hn, Outcome.bind]
    obtain ⟨fs1, d1, h1⟩ := ih
      (fs.put d.backingFile.name { n with data := n.data ++ p })
      { d with
        digester := { d.digester with absorbed := d.digester.absorbed ++ p }
        descriptor := { d.descriptor with Size := d.descriptor.Size + (p.length : Int) } }
      hc (by simp [Fs.put])
    exact ⟨fs1, d1, by simp [DescriptorWriter.WriteAll, hw, Outcome.bind, h1]⟩

/-- When the staging name is free, the session reaches `Close` with a writer whose `fs`
is nil, whose file is open, whose size is the payload length and whose hash has absorbed
the payload. -/
theorem writeChunks_ok (lib : DigestLib) (fs : Fs) (path mediaType alg : Str)
    (plat : Option Platform) (rnd : Str) (chunks : List Bytes)
    (hfree : fs (stagingName path rnd) = none) :
    ∃ fs1 d1, writeChunks lib fs path mediaType alg plat rnd chunks = .ok (fs1, d1) ∧
      d1.fs = none ∧ d1.backingFile.closed = false ∧
      d1.descriptor.Size = (chunks.flatten.length : Int) ∧
      d1.digester.alg = (if lib.available alg then alg else Canonical) ∧
      d1.digester.absorbed = chunks.flatten := by
  have hnew : ∃ fs0 d0, NewDescriptorWriterFs lib fs path mediaType alg plat rnd = .ok (fs0, d0) ∧
      (fs0 d0.backingFile.name).isSome = true := by
    cases h0 : NewDescriptorWriterFs lib fs path mediaType alg plat rnd with
    | ok r =>
      obtain ⟨fs0, d0⟩ := r
      refine ⟨fs0, d0, rfl, ?_⟩
      simp only [NewDescriptorWriterFs, TempFile, hfree, Outcome.bind, Outcome.ok.injEq,
        Prod.mk.injEq] at h0
      obtain ⟨rfl, rfl⟩ := h0
      simp [Fs.put]
    | error e => simp [NewDescriptorWriterFs, TempFile, hfree, Outcome.bind] at h0
    | panic => simp [NewDescriptorWriterFs, TempFile, hfree, Outcome.bind] at h0
  obtain ⟨fs0, d0, h0, hex⟩ := hnew
  obtain ⟨a1, a2, a3, a4, a5⟩ := NewDescriptorWriterFs_ok h0
  obtain ⟨fs1, d1, h1⟩ := DescriptorWriter.WriteAll_total chunks fs0 d0 a2 hex
  obtain ⟨b1, b2, b3, b4, b5, -⟩ := DescriptorWriter.WriteAll_ok chunks h1
  refine ⟨fs1, d1, by simp [writeChunks, h0, Outcome.bind, h1], b1.trans a1, ?_, ?_, b3.trans a5, ?_⟩
  · rw [b2]; exact a2
  · rw [b5, a4]; simp
  · rw [b4, a3]; simp

/-- C1 (code defect): in every writer session on a filesystem where the staging name is
free, whatever the payload and its chunking, `Close` does not return: the writer that
`NewDescriptorWriterFs` built has a nil `fs`, so the `Rename` that should publish the
staging file under `blobs/<algorithm>/<hex>` is a nil dereference. -/
theorem writeSession_panics (lib : DigestLib) (fs : Fs) (path mediaType alg : Str)
    (plat : Option Platform) (rnd : Str) (chunks : List Bytes)
    (hfree : fs (stagingName path rnd) = none) :
    writeSession lib fs path mediaType alg plat rnd chunks = .panic := by
  obtain ⟨fs1, d1, h1, hfs, hc, -⟩ :=
    writeChunks_ok lib fs path mediaType alg plat rnd chunks hfree
  simp [writeSession, h1, Outcome.bind, DescriptorWriter.Close, hc, hfs]

/-- Witness for C1: a session on the empty filesystem writing the payload `1 2 3` in two
chunks. -/
theorem writeSession_panics_witness :
    emptyFs (stagingName "/".toList "42".toList) = none ∧
      writeSession sampleLib emptyFs "/".toList "application/octet-stream".toList
        "sha256".toList none "42".toList [[1, 2], [3]] = .panic :=
  ⟨rfl, writeSession_panics sampleLib emptyFs _ _ _ none _ [[1, 2], [3]] rfl⟩

/-- C2 (code defect): for every payload and every chunking, the writer reaches `Close`
holding the size `len(P)` and the digest of `P` under its algorithm, so the accounting is
independent of the chunking; but `Close` then panics on the nil `fs` instead of returning
that descriptor. -/
theorem writeChunks_accounting_then_panic (lib : DigestLib) (fs : Fs)
    (path mediaType alg : Str) (plat : Option Platform) (rnd : Str) (chunks : List Bytes)
    (hfree : fs (stagingName path rnd) = none) :
    ∃ fs1 d1, writeChunks lib fs path mediaType alg plat rnd chunks = .ok (fs1, d1) ∧
      d1.descriptor.Size = (chunks.flatten.length : Int) ∧
      d1.digester.Digest lib =
        { Algorithm := (if lib.available alg then alg else Canonical)
          Encoded := lib.sum (if lib.available alg then alg else Canonical) chunks.flatten } ∧
      DescriptorWriter.Close lib fs1 d1 = .panic := by
  obtain ⟨fs1, d1, h1, hfs, hc, hsz, halg, habs⟩ :=
    writeChunks_ok lib fs path mediaType alg plat rnd chunks hfree
  refine ⟨fs1, d1, h1, hsz, ?_, ?_⟩
  · simp [Digester.Digest, halg, habs]
  · simp [DescriptorWriter.Close, hc, hfs]

/-- Witness for C2: the payload `7` written in one chunk on the empty filesystem. -/
theorem writeChunks_accounting_then_panic_witness :
    ∃ fs1 d1, writeChunks sampleLib emptyFs "/".toList [] "sha256".toList none "7".toList
        [[7]] = .ok (fs1, d1) ∧
      d1.descriptor.Size = (([[7]] : List Bytes).flatten.length : Int) ∧
      d1.digester.Digest sampleLib =
        { Algorithm := (if sampleLib.available "sha256".toList then "sha256".toList
            else Canonical)
          Encoded := sampleLib.sum (if sampleLib.available "sha256".toList then
            "sha256".toList else Canonical) ([[7]] : List Bytes).flatten } ∧
      DescriptorWriter.Close sampleLib fs1 d1 = .panic :=
  writeChunks_accounting_then_panic sampleLib emptyFs "/".toList [] "sha256".toList none
    "7".toList [[7]] rfl

/-! ## Archive writer -/

/-- Payload written right after a header belongs to the member of that header. -/
theorem TarWriter.WritePayload_WriteHeader (w : TarWriter) (hdr : Header) (b : Bytes) :
    (w.WriteHeader hdr).WritePayload b =
      { w with archive := w.archive ++ [{ hdr := hdr, payload := b }] } := by
  simp [TarWriter.WriteHeader, TarWriter.WritePayload]

/-- The header is accepted when no payload of the previous member is missing and the
header passes the checks of the library. -/
theorem TarWriter.WriteHeaderChecked_eq (w : TarWriter) (hdr : Header) (hm : w.missing ≤ 0)
    (hs : hdr.allowedGNU = true) :
    w.WriteHeaderChecked hdr = .ok (w.WriteHeader hdr) := by
  unfold TarWriter.WriteHeaderChecked
  rw [if_neg (by omega)]
  simp [hs]

/-- The mode field `tar.FileInfoHeader` computes fits the header field. -/
theorem headerMode_fits (fm : Nat) : fitsInBase256 (headerMode fm) = true := by
  have h1 : fm &&& ModePerm < 2 ^ 12 :=
    Nat.and_lt_two_pow fm (by decide : ModePerm < 2 ^ 12)
  have h2 : (if fm &&& ModeSetuid ≠ 0 then 0o4000 else 0) < 2 ^ 12 := by
    split_ifs <;> decide
  have h3 : (if fm &&& ModeSetgid ≠ 0 then 0o2000 else 0) < 2 ^ 12 := by
    split_ifs <;> decide
  have h4 : (if fm &&& ModeSticky ≠ 0 then 0o1000 else 0) < 2 ^ 12 := by
    split_ifs <;> decide
  have h : headerMode fm < 2 ^ 12 :=
    Nat.or_lt_two_pow (Nat.or_lt_two_pow (Nat.or_lt_two_pow h1 h2) h3) h4
  have hz : ((headerMode fm : Nat) : Int) < 2 ^ 56 := by
    have : headerMode fm < 2 ^ 56 := lt_trans h (by decide)
    exact_mod_cast this
  have h0 : (0 : Int) ≤ ((headerMode fm : Nat) : Int) := Int.natCast_nonneg _
  simp only [fitsInBase256, Bool.and_eq_true, decide_eq_true_eq]
  constructor
  · have : (-(2 ^ 56) : Int) ≤ 0 := by norm_num
    omega
  · exact hz

/-- What the `tar.Writer` expects right after a header: nothing for a header-only member,
else the size of the header. -/
theorem TarWriter.missing_WriteHeader (w : TarWriter) (hdr : Header) :
    (w.WriteHeader hdr).missing =
      if isHeaderOnlyType (storedFlag hdr) then 0 else hdr.Size := by
  simp [TarWriter.missing, TarWriter.WriteHeader]

/-- Nothing is missing once a member has its header and a payload of the announced
length. -/
theorem TarWriter.missing_after_member (archive : List TarEntry) (seen : List (Devino × Str))
    (symLinks : List Header) (e : TarEntry)
    (h : isHeaderOnlyType (storedFlag e.hdr) = true ∨ e.hdr.Size = (e.payload.length : Int)) :
    TarWriter.missing { archive := archive ++ [e], seen := seen, symLinks := symLinks } = 0 := by
  have hl : (archive ++ [e]).getLast? = some e := by simp
  simp only [TarWriter.missing, hl]
  rcases h with h | h
  · simp [h]
  · split_ifs
    · rfl
    · omega

/-- A session of calls splits at any point. -/
theorem TarWriter.AddEntries_append (os : OsFs) (now : Int) (xs ys : List EntryArgs) :
    ∀ w : TarWriter, TarWriter.AddEntries os now w (xs ++ ys) =
      (TarWriter.AddEntries os now w xs).bind fun w1 => TarWriter.AddEntries os now w1 ys := by
  induction xs with
  | nil => intro w; simp [TarWriter.AddEntries, Outcome.bind]
  | cons c cs ih =>
    intro w
    simp only [List.cons_append, TarWriter.AddEntries]
    cases h : w.AddEntry os now c.realPath c.inImagePath c.info c.whiteout with
    | ok w1 => simp [Outcome.bind, ih]
    | error e => simp [Outcome.bind]
    | panic => simp [Outcome.bind]

/-- For a mode without type bits `tar.FileInfoHeader` returns the regular-file header. -/
theorem FileInfoHeader_regular (info : FileInfo) (link : Str)
    (h : info.Mode &&& ModeType = 0) : FileInfoHeader info link = .ok (regularHeader info) := by
  simp [FileInfoHeader, headerType, h, Outcome.bind, regularHeader]

/-- What `AddEntry` does with a call that takes the regular-file path to its end, on a
writer whose last member is complete and whose recorded paths hold no NUL: the
device-inode key is looked up; a key seen before gives a hardlink header of size zero to
the recorded path and no payload, a new key gives the regular-file header followed by the
content and is recorded with the image path. -/
theorem TarWriter.AddEntry_plainFile (os : OsFs) (now : Int) (w : TarWriter) (c : EntryArgs)
    (k : Devino) (hk : devinoOf c.info = some k) (hc : c.plainFile os = true)
    (hm : w.missing = 0)
    (hnul : ∀ orig, w.seen.lookup k = some orig → hasNUL orig = false) :
    w.AddEntry os now c.realPath c.inImagePath c.info c.whiteout = .ok
      (match w.seen.lookup k with
        | some orig =>
          { w with archive := w.archive ++ [
            { hdr := { regularHeader c.info with
                Typeflag := .TypeLink, Linkname := orig, Size := 0
                Name := trimSlash c.inImagePath, Format := .FormatGNU }
              payload := [] }] }
        | none =>
          { w with
            archive := w.archive ++ [
              { hdr := { regularHeader c.info with
                  Name := trimSlash c.inImagePath, Format := .FormatGNU }
                payload := c.content os }]
            seen := (k, trimSlash c.inImagePath) :: w.seen }) := by
  obtain ⟨realPath, inImagePath, info, whiteout⟩ := c
  simp only [EntryArgs.plainFile, Bool.and_eq_true, Bool.not_eq_true', decide_eq_true_eq,
    Option.isSome_iff_exists] at hc
  obtain ⟨⟨⟨⟨⟨⟨⟨⟨hw, hreg⟩, hbl⟩, st, hst⟩, hprobe⟩, hsize⟩, hname⟩, hslash⟩, hids⟩ := hc
  simp only at hk hsize hname hslash hids hnul ⊢
  subst hw
  rw [hst] at hids
  simp only [Bool.and_eq_true] at hids
  obtain ⟨huid, hgid⟩ := hids
  have hmode := headerMode_fits info.Mode
  have hkey : k = { Dev := st.Dev, Ino := st.Ino } := by
    simp [devinoOf, hst] at hk; exact hk.symm
  subst hkey
  have e1 : (0 : Nat) ≠ ModeSocket := by decide
  have e2 : (0 : Nat) ≠ ModeNamedPipe := by decide
  have e3 : (0 : Nat) ≠ ModeSticky := by decide
  have e4 : (0 : Nat) ≠ ModeExclusive := by decide
  have e5 : (0 : Nat) ≠ ModeDir := by decide
  have e6 : (0 : Nat) ≠ ModeDevice := by decide
  have e7 : (0 : Nat) ≠ ModeCharDevice := by decide
  have e8 : (0 : Nat) ≠ ModeSymlink := by decide
  cases hos : os realPath with
  | none => simp [hos] at hprobe
  | some node =>
    cases hd : node.data with
    | none => simp [hos, hd] at hprobe
    | some data =>
      cases data with
      | nil => simp [hos, hd] at hprobe
      | cons b bs =>
        have hsz : info.Size = ((b :: bs).length : Int) := by
          simpa [EntryArgs.content, hos, hd] using hsize
        unfold TarWriter.AddEntry
        simp only [hbl, hreg, e1, e2, e3, e4, e5, e6, e7, e8, hos, hd, hst,
          FileInfoHeader_regular info [] hreg, Outcome.bind, or_self, if_false,
          Bool.false_eq_true, EntryArgs.content, Option.getD_some]
        have hm1 : ∀ (seen : List (Devino × Str)),
            TarWriter.missing { archive := w.archive, seen := seen, symLinks := w.symLinks }
              = 0 := fun _ => hm
        cases hl : List.lookup { Dev := st.Dev, Ino := st.Ino } w.seen with
        | some orig =>
          have horig := hnul orig hl
          simp [TarWriter.WriteHeaderChecked, hm1, storedFlag, isHeaderOnlyType,
            TarWriter.WriteHeader, regularHeader, Header.allowedGNU, hname, hslash, horig,
            huid, hgid, hmode, hst]
        | none =>
          have hneg : ¬ ((bs.length : Int) + 1 < 0) := by omega
          have hempty : hasNUL [] = false := rfl
          simp [TarWriter.WriteHeaderChecked, TarWriter.WritePayloadChecked, hm1, storedFlag,
            isHeaderOnlyType, TarWriter.missing_WriteHeader,
            TarWriter.WritePayload_WriteHeader, regularHeader, hsz, hneg, Header.allowedGNU,
            hname, hslash, hempty, huid, hgid, hmode, hst]

/-- Invariant of a session of calls that all take the regular-file path to its end: the
session succeeds, writes one member per call, the map `seen` sends each key to the image
path of the first call that carried it, and the members follow the hardlink rule. -/
theorem TarWriter.AddEntries_plainFiles (os : OsFs) (now : Int) (calls : List EntryArgs)
    (h : ∀ c ∈ calls, c.plainFile os = true) :
    ∃ w, TarWriter.AddEntries os now NewTarWriter calls = .ok w ∧
      w.missing = 0 ∧
      w.archive.length = calls.length ∧
      (∀ k, w.seen.lookup k =
        (calls.find? (fun p => devinoOf p.info == some k)).map
          (fun p => trimSlash p.inImagePath)) ∧
      ∀ i c, calls[i]? = some c → ∃ e, w.archive[i]? = some e ∧
        e.hdr.Name = trimSlash c.inImagePath ∧
        match (calls.take i).find? (fun p => devinoOf p.info == devinoOf c.info) with
        | none => e.hdr.Typeflag = .TypeReg ∧ e.hdr.Size = c.info.Size ∧
            e.payload = c.content os
        | some first => e.hdr.Typeflag = .TypeLink ∧ e.hdr.Size = 0 ∧ e.payload = [] ∧
            e.hdr.Linkname = trimSlash first.inImagePath := by
  induction calls using List.reverseRecOn with
  | nil =>
    refine ⟨NewTarWriter, rfl, rfl, rfl, ?_, ?_⟩
    · intro k; simp [NewTarWriter]
    · intro i c hc; simp at hc
  | append_singleton l c ih =>
    obtain ⟨w0, hw0, hmiss, hlen, hseen, hidx⟩ := ih (fun c hc => h c (by simp [hc]))
    have hc : c.plainFile os = true := h c (by simp)
    have hsys : c.info.Sys.isSome = true := by
      simp only [EntryArgs.plainFile, Bool.and_eq_true] at hc
      exact hc.1.1.1.1.1.2
    have hsize : c.info.Size = ((c.content os).length : Int) := by
      simp only [EntryArgs.plainFile, Bool.and_eq_true, decide_eq_true_eq] at hc
      exact hc.1.1.1.2
    obtain ⟨st, hst⟩ := Option.isSome_iff_exists.mp hsys
    have hk : devinoOf c.info = some { Dev := st.Dev, Ino := st.Ino } := by
      simp [devinoOf, hst]
    have hfind := hseen { Dev := st.Dev, Ino := st.Ino }
    have hnul : ∀ orig, w0.seen.lookup { Dev := st.Dev, Ino := st.Ino } = some orig →
        hasNUL orig = false := by
      intro orig ho
      rw [hfind] at ho
      cases hf : List.find? (fun p => devinoOf p.info ==
          some { Dev := st.Dev, Ino := st.Ino }) l with
      | none => rw [hf] at ho; simp at ho
      | some first =>
        rw [hf] at ho
        simp only [Option.map_some', Option.some.injEq] at ho
        have hfirst : first.plainFile os = true :=
          h first (by simp [List.mem_of_find?_eq_some hf])
        simp only [EntryArgs.plainFile, Bool.and_eq_true, Bool.not_eq_true'] at hfirst
        rw [← ho]
        exact hfirst.1.1.2
    have hstep := TarWriter.AddEntry_plainFile os now w0 c _ hk hc hmiss hnul
    rw [TarWriter.AddEntries_append, hw0]
    simp only [Outcome.bind, TarWriter.AddEntries, hstep]
    refine ⟨_, rfl, ?_, ?_, ?_, ?_⟩
    · cases hl : List.lookup { Dev := st.Dev, Ino := st.Ino } w0.seen with
      | some orig =>
        exact TarWriter.missing_after_member _ _ _ _ (Or.inl rfl)
      | none =>
        exact TarWriter.missing_after_member _ _ _ _ (Or.inr (by simpa [regularHeader] using hsize))
    · cases hl : List.lookup { Dev := st.Dev, Ino := st.Ino } w0.seen <;> simp [hlen]
    · intro k
      rw [List.find?_append]
      cases hl : List.lookup { Dev := st.Dev, Ino := st.Ino } w0.seen with
      | some orig =>
        simp only
        rw [hseen k]
        cases hf : List.find? (fun p => devinoOf p.info == some k) l with
        | some p => simp
        | none =>
          have hne : ¬ (k = { Dev := st.Dev, Ino := st.Ino }) := by
            intro hkk
            subst hkk
            rw [hl, hf] at hfind
            simp at hfind
          simp [hk, Ne.symm hne]
      | none =>
        simp only [List.lookup_cons]
        rw [hl] at hfind
        by_cases hkk : k = { Dev := st.Dev, Ino := st.Ino }
        · subst hkk
          have hf : List.find? (fun p => devinoOf p.info == some { Dev := st.Dev, Ino := st.Ino }) l
              = none := by
            cases hf : List.find? (fun p => devinoOf p.info ==
                some { Dev := st.Dev, Ino := st.Ino }) l with
            | none => rfl
            | some p => rw [hf] at hfind; simp at hfind
          simp [hf, hk]
        · have hb : (k == ({ Dev := st.Dev, Ino := st.Ino } : Devino)) = false := by
            simpa using hkk
          rw [hb, hseen k]
          cases hf : List.find? (fun p => devinoOf p.info == some k) l with
          | some p => simp
          | none => simp [hk, Ne.symm hkk]
    · intro i c1 hc1
      by_cases hi : i < l.length
      · have hc1l : l[i]? = some c1 := by
          rwa [List.getElem?_append_left hi] at hc1
        obtain ⟨e, he, hprops⟩ := hidx i c1 hc1l
        refine ⟨e, ?_, ?_⟩
        · have hia : i < w0.archive.length := by omega
          cases hl : List.lookup { Dev := st.Dev, Ino := st.Ino } w0.seen <;>
            simp [List.getElem?_append_left hia, he]
        · have ht : List.take i (l ++ [c]) = List.take i l := by
            rw [List.take_append_of_le_length (by omega)]
          rw [ht]
          exact hprops
      · have hil : i = l.length := by
          have := List.getElem?_eq_some_iff.mp hc1
          obtain ⟨hlt, -⟩ := this
          simp at hlt
          omega
        subst hil
        have hcc : c1 = c := by simpa using hc1.symm
        subst hcc
        have ht : List.take l.length (l ++ [c1]) = l := by simp
        rw [ht, hk]
        cases hl : List.lookup { Dev := st.Dev, Ino := st.Ino } w0.seen with
        | some orig =>
          rw [hl] at hfind
          cases hf : List.find? (fun p => devinoOf p.info ==
              some { Dev := st.Dev, Ino := st.Ino }) l with
          | none => rw [hf] at hfind; simp at hfind
          | some first =>
            rw [hf] at hfind
            simp only [Option.map_some', Option.some.injEq] at hfind
            simp only [← hlen, List.getElem?_concat_length, Option.some.injEq, exists_eq_left']
            simp [hfind]
        | none =>
          rw [hl] at hfind
          cases hf : List.find? (fun p => devinoOf p.info ==
              some { Dev := st.Dev, Ino := st.Ino }) l with
          | some first => rw [hf] at hfind; simp at hfind
          | none =>
            simp only [← hlen, List.getElem?_concat_length, Option.some.injEq, exists_eq_left']
            simp [regularHeader]

/-- A file longer than its file info says is refused: `/s/a` holds two bytes, the file
info announces one, and the copy into the archive ends in `ErrWriteTooLong`. -/
theorem TarWriter.AddEntry_refuses_longer_file :
    NewTarWriter.AddEntry sampleOs 0 "/s/a".toList "/a".toList (sampleReg "a" 1 7) false =
      .error .writeTooLong := by
  decide

/-- A file shorter than its file info says leaves its member incomplete: the call itself
returns without error, and the header of the next call is refused, so the later name of
the same file gets no hardlink header. -/
theorem TarWriter.AddEntries_refuses_after_short_file :
    (TarWriter.AddEntries sampleOs 0 NewTarWriter
        [sampleCall "/s/a" "/a" (sampleReg "a" 5 7)]).map (fun w => w.archive.length) =
      .ok 1 ∧
    TarWriter.AddEntries sampleOs 0 NewTarWriter
        [sampleCall "/s/a" "/a" (sampleReg "a" 5 7), sampleCall "/s/b" "/b" (sampleReg "b" 2 7)] =
      .error .missedWriting := by
  refine ⟨by decide, by decide⟩

/-- A regular file whose image path ends in a separator is refused by the header checks
of the library. -/
theorem TarWriter.AddEntry_refuses_trailing_separator :
    NewTarWriter.AddEntry sampleOs 0 "/s/a".toList "/a/".toList (sampleReg "a" 2 7) false =
      .error .headerError := by
  decide

/-- C3 (amended): in one session, for every sequence of `AddEntry` calls without whiteout
on regular files whose probe read succeeds, whose file info reports the length of the
file, and whose image path is not on the blacklist and fit for a regular-file header (no
NUL, no separator at the end), the calls that share a device-inode key produce one
regular-file header with the content, for the first of them, and for every later one a
hardlink header of size zero without payload whose link name is the image path of that
first call. -/
theorem hardlinkRule_of_plainFiles (os : OsFs) (now : Int) (calls : List EntryArgs)
    (h : ∀ c ∈ calls, c.plainFile os = true) : hardlinkRule os now calls := by
  obtain ⟨w, hw, -, hlen, -, hidx⟩ := TarWriter.AddEntries_plainFiles os now calls h
  exact ⟨w, hw, hlen, hidx⟩

/-- Witness for C3: three calls, the first two on names of one file. -/
theorem hardlinkRule_of_plainFiles_witness :
    hardlinkRule sampleOs 0
      [sampleCall "/s/a" "/a" (sampleReg "a" 2 7), sampleCall "/s/b" "b" (sampleReg "b" 2 7),
        sampleCall "/s/c" "c" (sampleReg "c" 1 8)] :=
  hardlinkRule_of_plainFiles sampleOs 0 _ (by decide)

/-- C3 (counterexample): two readable regular files with one device-inode key, the first
added under the blacklisted image path `dev/zconsole`. The first call writes nothing, the
second writes a regular-file header, and no hardlink header is written. -/
theorem hardlinkRule_fails_on_blacklisted :
    ¬ hardlinkRule sampleOs 0
      [sampleCall "/s/zconsole" "/dev/zconsole" (sampleReg "zconsole" 2 7),
        sampleCall "/s/b" "/dev/b" (sampleReg "b" 2 7)] := by
  rintro ⟨w, hw, hlen, -⟩
  have h1 : (match TarWriter.AddEntries sampleOs 0 NewTarWriter
      [sampleCall "/s/zconsole" "/dev/zconsole" (sampleReg "zconsole" 2 7),
        sampleCall "/s/b" "/dev/b" (sampleReg "b" 2 7)] with
      | .ok w => w.archive.map (fun e => (e.hdr.Typeflag, e.hdr.Name))
      | _ => []) = [(.TypeReg, "dev/b".toList)] := by decide
  rw [hw] at h1
  have h2 := congrArg List.length h1
  simp at h2
  simp [h2] at hlen

/-- The statements that end `AddLayerFile`, `AddTree` and `AddDiff` keep the layers and the
DiffIDs in step. -/
theorem Image.appendLayer_keeps_mirror (img : Image) (descr : Descriptor) (h : History)
    (hm : img.layersMirrorDiffIDs) : (img.appendLayer descr h).layersMirrorDiffIDs := by
  unfold Image.layersMirrorDiffIDs at hm ⊢
  simp [Image.appendLayer, hm]

/-- C5 (code defect): two `AddLayerDescriptors` calls on a new image. The second
descriptor is put in front of the layers while its digest goes to the end of the DiffIDs:
the layers read `bb, aa`, the DiffIDs `aa, bb`, and the correspondence by index is lost. -/
theorem AddLayerDescriptors_twice_breaks_mirror :
    (((CreateImage "img".toList).AddLayerDescriptors [sampleDescriptor "aa"]).AddLayerDescriptors
        [sampleDescriptor "bb"]).manifest.Layers.map (fun descr => descr.Digest.Encoded)
      = ["bb".toList, "aa".toList] ∧
    (((CreateImage "img".toList).AddLayerDescriptors [sampleDescriptor "aa"]).AddLayerDescriptors
        [sampleDescriptor "bb"]).Config.RootFS.DiffIDs.map (fun dg => dg.Encoded)
      = ["aa".toList, "bb".toList] ∧
    ¬ (((CreateImage "img".toList).AddLayerDescriptors
        [sampleDescriptor "aa"]).AddLayerDescriptors [sampleDescriptor "bb"]).layersMirrorDiffIDs := by
  refine ⟨by decide, by decide, ?_⟩
  unfold Image.layersMirrorDiffIDs
  decide

/-! ## Diff engine -/

/-- C6 (code defect): `f1` is present in both trees with the same permission bits and
size, owned by uid 0 on the old side and by uid 1000 on the new side. Its metadata differs,
yet `AddDiff` puts no member into the layer. -/
theorem AddDiff_owner_change_emits_nothing :
    (diffOs "/ta/f1".toList).map (fun n => n.info.Sys.map (fun st => st.Uid)) = some (some 0) ∧
    (diffOs "/tb/f1".toList).map (fun n => n.info.Sys.map (fun st => st.Uid)) =
      some (some 1000) ∧
    AddDiff.members diffOs 0 "/ta".toList "/tb".toList (diffWalk ["/ta", "/ta/f1"])
      (diffWalk ["/tb", "/tb/f1"]) = .ok [] := by
  decide

/-- C7 (code defect): for an entry that exists on both sides, is neither a symlink nor of
a skipped type, and has the same permission bits and the same size on both sides, the
first walk of `AddDiff` writes nothing, whatever the owner and the group of the new side
are: the comparison reads both sets of owner fields from the old side. -/
theorem AddDiff_visitA_ignores_owner (os : OsFs) (now : Int) (rootA rootB : Str)
    (layer : TarWriter) (path : Str) (info : FileInfo) (l2node : OsNode) (st : Stat_t)
    (hpath : path ≠ Replace path (rootA ++ ['/']) [])
    (hB : os (Replace path rootA rootB) = some l2node)
    (hskip : ¬ (info.Mode &&& ModeType = ModeSocket ∨ info.Mode &&& ModeType = ModeNamedPipe ∨
      info.Mode &&& ModeType = ModeSticky ∨ info.Mode &&& ModeType = ModeExclusive))
    (hsym : info.Mode &&& ModeType ≠ ModeSymlink)
    (hsys : info.Sys = some st)
    (hperm : info.Mode &&& ModePerm = l2node.info.Mode &&& ModePerm)
    (hsize : info.Size = l2node.info.Size) :
    AddDiff.visitA os now rootA rootB layer path info = .ok layer := by
  unfold AddDiff.visitA
  simp only [if_neg hpath, hB, if_neg hskip, if_neg hsym, hsys, hperm, hsize, ne_eq,
    not_true_eq_false, or_self, if_false]

/-- Witness for C7: `f1` under `/ua` and `/ub` differs in the owning group only (gid 0
against gid 100), and the first walk writes no replacement entry for it. -/
theorem AddDiff_visitA_ignores_owner_witness :
    (diffOs "/ua/f1".toList).map (fun n => n.info.Sys.map (fun st => st.Gid)) = some (some 0) ∧
    (diffOs "/ub/f1".toList).map (fun n => n.info.Sys.map (fun st => st.Gid)) =
      some (some 100) ∧
    AddDiff.visitA diffOs 0 "/ua".toList "/ub".toList NewTarWriter "/ua/f1".toList
      (sampleFile "f1" 2 0o644 31 0 0) = .ok NewTarWriter :=
  ⟨by decide, by decide,
    AddDiff_visitA_ignores_owner diffOs 0 "/ua".toList "/ub".toList NewTarWriter
      "/ua/f1".toList (sampleFile "f1" 2 0o644 31 0 0)
      ⟨sampleFile "f1" 2 0o644 33 0 100, some [1, 2], none⟩ (sampleStat 31 0 0)
      (by decide) (by decide) (by decide) (by decide) rfl (by decide) (by decide)⟩

/-- C8 (code defect): `f1` has size 2 and content `1 2` under the old root, size 3 and
content `9 9 9` under the new root. The replacement entry written for it has size 2 and
payload `1 2`: it is built from the file under the old root. -/
theorem AddDiff_replacement_taken_from_old_tree :
    (diffOs "/vb/f1".toList).map (fun n => (n.info.Size, n.data)) =
      some (3, some [9, 9, 9]) ∧
    (AddDiff.members diffOs 0 "/va".toList "/vb".toList (diffWalk ["/va", "/va/f1"])
      (diffWalk ["/vb", "/vb/f1"])).map
        (fun ms => ms.map (fun e => (e.hdr.Name, e.hdr.Size, e.payload)))
      = .ok [("f1".toList, 2, [1, 2])] := by
  decide

/-- C9 (code defect): a directory `d` and a symlink `l` exist under the old root only. The
layer receives a directory header `d` and a symlink header `l`, and no whiteout marker. -/
theorem AddDiff_deleted_directory_no_whiteout :
    diffOs "/wb/d".toList = none ∧ diffOs "/wb/l".toList = none ∧
    (AddDiff.members diffOs 0 "/wa".toList "/wb".toList (diffWalk ["/wa", "/wa/d", "/wa/l"])
      (diffWalk ["/wb"])).map (fun ms => ms.map (fun e => (e.hdr.Typeflag, e.hdr.Name)))
      = .ok [(.TypeDir, "d".toList), (.TypeSymlink, "l".toList)] := by
  decide

/-! ## Archive reader -/

/-- C10 (code defect): the archive holds the whiteout marker `WhiteoutFile` writes for the
path `a/x.wh.y`, and the target holds `a/x.wh.y` and `a/xy`. Extraction succeeds, leaves
`a/x.wh.y` in place and removes `a/xy`: the reader strips every `.wh.` from the marker
name. No file is created under the marker name. -/
theorem ExtractTreeInto_whiteout_removes_other_path :
    (whiteoutArchive 1700000000 "a/x.wh.y".toList).map (fun e => e.hdr.Name) =
      ["a/.wh.x.wh.y".toList] ∧
    (sampleTarget "a/x.wh.y".toList).isSome = true ∧
    (sampleTarget "a/xy".toList).isSome = true ∧
    (ExtractTreeInto sampleClock true (whiteoutArchive 1700000000 "a/x.wh.y".toList)
      sampleTarget).map (fun fs =>
        ((fs "a/x.wh.y".toList).isSome, (fs "a/xy".toList).isSome,
          (fs "a/.wh.x.wh.y".toList).isSome)) = .ok (true, false, false) := by
  decide

/-- C11: timestamp clamping in `safeChtimes`. On an existing target the modification
time applied is the entry's own when it lies inside the window from `minTarDate` to
`maxTarDate`, bounds included, and the current time otherwise; the access time applied is
the entry's own when it lies inside the window, and otherwise the modification time that
is applied. -/
theorem safeChtimes_applies_clamped_times (clock : Clock) (targetFs : Fs) (name : Str)
    (atime mtime : Int) (n : FsNode) (h : targetFs name = some n) :
    safeChtimes clock targetFs name atime mtime = .ok (targetFs.put name
      { n with
        atime :=
          if clock.minTarDate ≤ atime ∧ atime ≤ clock.maxTarDate then atime
          else if clock.minTarDate ≤ mtime ∧ mtime ≤ clock.maxTarDate then mtime
          else clock.now
        mtime :=
          if clock.minTarDate ≤ mtime ∧ mtime ≤ clock.maxTarDate then mtime
          else clock.now }) := by
  have hm : (mtime < clock.minTarDate ∨ mtime > clock.maxTarDate) ↔
      ¬ (clock.minTarDate ≤ mtime ∧ mtime ≤ clock.maxTarDate) := by omega
  have ha : (atime < clock.minTarDate ∨ atime > clock.maxTarDate) ↔
      ¬ (clock.minTarDate ≤ atime ∧ atime ≤ clock.maxTarDate) := by omega
  unfold safeChtimes Fs.Chtimes
  simp only [h, hm, ha, ite_not]

/-- Witness for C11: an entry whose modification and access time are 1899-01-01 is applied
with the current time for both. -/
theorem safeChtimes_applies_clamped_times_witness :
    safeChtimes sampleClock sampleTarget "a/b.txt".toList (-2240524800) (-2240524800) =
      .ok (sampleTarget.put "a/b.txt".toList
        { emptyFile 0o644 with data := [1], atime := 1700000000, mtime := 1700000000 }) :=
  safeChtimes_applies_clamped_times sampleClock sampleTarget "a/b.txt".toList (-2240524800)
    (-2240524800) { emptyFile 0o644 with data := [1] } rfl

/-! ## Layer reader, image layouts, repositories -/

/-- Closing a layer writer ends in the nil dereference of the blob writer: on a
filesystem where the staging name is free, `NewLayerWriter` followed by `Close` panics,
whatever has been added to the archive. -/
theorem LayerWriter.Close_after_new_panics (lib : DigestLib) (encode : List TarEntry → Bytes)
    (fs : Fs) (alg rnd : Str) (w : TarWriter)
    (hfree : fs (stagingName "/".toList rnd) = none) :
    ((NewLayerWriter lib fs alg rnd).bind fun (fs1, l) =>
      LayerWriter.Close lib encode fs1 { l with archiveWriter := w }) = .panic := by
  obtain ⟨fs1, d1, h1, hfs, hc, -⟩ := writeChunks_ok lib fs "/".toList
    MediaTypeImageLayerGzip alg none rnd [encode w.Close.archive] hfree
  unfold writeChunks at h1
  cases h0 : NewDescriptorWriterFs lib fs "/".toList MediaTypeImageLayerGzip alg none rnd with
  | error e => rw [h0] at h1; simp [Outcome.bind] at h1
  | panic => rw [h0] at h1; simp [Outcome.bind] at h1
  | ok r =>
    obtain ⟨fs0, d0⟩ := r
    rw [h0] at h1
    simp only [Outcome.bind, DescriptorWriter.WriteAll] at h1
    cases hw : DescriptorWriter.Write fs0 d0 (encode w.Close.archive) with
    | error e => rw [hw] at h1; simp at h1
    | panic => rw [hw] at h1; simp at h1
    | ok r2 =>
      obtain ⟨fs2, d2⟩ := r2
      rw [hw] at h1
      simp only [Outcome.ok.injEq, Prod.mk.injEq] at h1
      obtain ⟨rfl, rfl⟩ := h1
      unfold NewLayerWriter LayerWriter.Close
      rw [h0]
      simp only [Outcome.bind]
      rw [hw]
      simp [DescriptorWriter.Close, hc, hfs]

/-- C12 (code defect): the image filesystem holds a layer blob under
`blobs/sha256/abc`, where the blob writer publishes it. The blob reader opens it by its
digest; `NewLayerReader` with the descriptor of that digest looks under `sha256/abc`,
without the blobs directory, and returns a not-exist error. -/
theorem NewLayerReader_misses_published_blob :
    blobPath { Algorithm := Canonical, Encoded := "abc".toList } = "blobs/sha256/abc".toList ∧
    NewDescriptorReaderFsDigest publishedFs { Algorithm := Canonical, Encoded := "abc".toList }
      = .ok [31, 139, 8] ∧
    BasePathFs.RealPath { source := publishedFs, path := Canonical } "abc".toList
      = .ok "sha256/abc".toList ∧
    NewLayerReader (fun _ => true) publishedFs (sampleDescriptor "abc") = .error .notExist := by
  decide

/-- A successful `Mkdir` found the name free and stored a directory under it. -/
theorem Fs.Mkdir_ok {fs fs1 : Fs} {name : Str} {mode : Nat}
    (h : fs.Mkdir name mode = .ok fs1) :
    fs name = none ∧ fs1 = fs.put name { emptyFile mode with isDir := true } := by
  unfold Fs.Mkdir at h
  cases hn : fs name with
  | none => rw [hn] at h; simp only [Outcome.ok.injEq] at h; exact ⟨rfl, h.symm⟩
  | some v => rw [hn] at h; simp at h

/-- Storing a node keeps every name that had one. -/
theorem Fs.put_isSome (fs : Fs) (name q : Str) (n : FsNode)
    (h : (fs q).isSome = true) : ((fs.put name n) q).isSome = true := by
  unfold Fs.put
  split_ifs
  · rfl
  · exact h

/-- Writing to a file that has just been stored under its name appends to its data. -/
theorem File.Write_after_put (fs : Fs) (p : Str) (n : FsNode) (doc : Bytes) :
    File.Write (fs.put p n) { name := p, closed := false } doc =
      .ok ((fs.put p n).put p { n with data := n.data ++ doc }) := by
  simp [File.Write, Fs.put]

/-- What a successful `createImageLayout` leaves on the repository filesystem: a node
under the layout name, a node under the name of the layout file, the encoded index under
the name of the index file, and a directory under the name of the blobs directory. -/
theorem createImageLayout_ok {json : JsonLib} {repoFs fs1 : Fs} {name : Str}
    {img : ImageLayout} (h : createImageLayout json repoFs name = .ok (fs1, img)) :
    (fs1 name).isSome = true ∧ (fs1 (Join [name, ImageLayoutFile])).isSome = true ∧
      (∃ f, fs1 (Join [name, imageIndexEntrypointFileName]) = some f ∧ f.isDir = false ∧
        f.data = json.indexDoc) ∧
      afero.DirExists fs1 (Join [name, blobsDirectory]) = true := by
  unfold createImageLayout at h
  split_ifs at h with hex
  obtain ⟨fsA, hA, h⟩ := Outcome.bind_eq_ok.mp h
  obtain ⟨fsB, hB, h⟩ := Outcome.bind_eq_ok.mp h
  obtain ⟨fsC, hC, h⟩ := Outcome.bind_eq_ok.mp h
  obtain ⟨fsD, hD, h⟩ := Outcome.bind_eq_ok.mp h
  obtain ⟨fsE, hE, h⟩ := Outcome.bind_eq_ok.mp h
  obtain ⟨fsF, hF, h⟩ := Outcome.bind_eq_ok.mp h
  simp only [Outcome.ok.injEq, Prod.mk.injEq] at h
  obtain ⟨rfl, -⟩ := h
  obtain ⟨-, rfl⟩ := Fs.Mkdir_ok hA
  simp only [Fs.Create, Outcome.ok.injEq] at hB hD
  subst hB
  rw [File.Write_after_put] at hC
  simp only [Outcome.ok.injEq] at hC
  subst hC
  subst hD
  rw [File.Write_after_put] at hE
  simp only [Outcome.ok.injEq] at hE
  subst hE
  obtain ⟨hfree, rfl⟩ := Fs.Mkdir_ok hF
  have hne : Join [name, imageIndexEntrypointFileName] ≠ Join [name, blobsDirectory] := by
    intro heq
    rw [← heq] at hfree
    simp [Fs.put] at hfree
  refine ⟨?_, ?_, ?_, ?_⟩
  · iterate 5 apply Fs.put_isSome
    simp [Fs.put]
  · iterate 3 apply Fs.put_isSome
    simp [Fs.put]
  · refine ⟨{ emptyFile 0o666 with data := (emptyFile 0o666).data ++ json.indexDoc }, ?_, rfl, ?_⟩
    · simp only [Fs.put, if_neg hne, if_true]
    · simp [emptyFile]
  · simp [afero.DirExists, Fs.put]

/-- C13: after `CreateImageLayout(name)` has succeeded on a repository filesystem,
`OpenImageLayout(name)` succeeds, `HasImageLayout(name)` and
`IsImageLayoutConsistent(name)` are true, and a second `CreateImageLayout(name)` returns
an error. The JSON decoder is taken to accept the encoded index both as an index and, as
it ignores unknown fields, as a layout document. -/
theorem CreateImageLayout_exactly_once (json : JsonLib) (repoFs fs1 : Fs) (name : Str)
    (img : ImageLayout) (hidx : json.decodesIndex json.indexDoc = true)
    (hlay : json.decodesLayout json.indexDoc = true)
    (h : CreateImageLayout json repoFs name = .ok (fs1, img)) :
    (∃ l, OpenImageLayout json fs1 name = .ok l) ∧ HasImageLayout fs1 name = true ∧
      IsImageLayoutConsistent json fs1 name = true ∧
      CreateImageLayout json fs1 name = .error .layoutExists := by
  obtain ⟨h0, h1, ⟨f, hf, hdir, hdata⟩, h3⟩ := createImageLayout_ok h
  have hopen : openImageLayout json fs1 name = .ok
      { layout := json.indexDoc, index := json.indexDoc, fsBase := name } := by
    simp [openImageLayout, decodeFile, hf, hdir, hdata, hidx, hlay, h3, Outcome.bind]
  refine ⟨⟨_, hopen⟩, h1, ?_, ?_⟩
  · simp [IsImageLayoutConsistent, hopen]
  · simp [CreateImageLayout, createImageLayout, afero.Exists, h0]

/-- Witness for C13: the layout `testing` made on the empty filesystem. -/
theorem CreateImageLayout_exactly_once_witness :
    (∃ l, OpenImageLayout sampleJson sampleLayoutFs "testing".toList = .ok l) ∧
      HasImageLayout sampleLayoutFs "testing".toList = true ∧
      IsImageLayoutConsistent sampleJson sampleLayoutFs "testing".toList = true ∧
      CreateImageLayout sampleJson sampleLayoutFs "testing".toList = .error .layoutExists :=
  CreateImageLayout_exactly_once sampleJson emptyFs sampleLayoutFs "testing".toList
    { layout := sampleJson.layoutDoc, index := sampleJson.indexDoc, fsBase := "testing".toList }
    (by decide) (by decide) rfl

/-- C14 (code defect): `OpenRepositoryFS(fs, path)` returns `ErrNoRepository` whenever
the OS filesystem has no directory at the path, whatever the filesystem passed in holds:
the existence check is `IsRepository(path)`, which asks `afero.NewOsFs()`. -/
theorem OpenRepositoryFS_asks_os (os : OsFs) (fs : Fs) (path : Str)
    (h : IsRepository os path = false) :
    OpenRepositoryFS os fs path = .error .noRepository := by
  simp [OpenRepositoryFS, h]

/-- Witness for C14: on the empty in-memory filesystem `CreateRepositoryFS` makes the
repository `/test`; the OS has no `/test`, and `OpenRepositoryFS` on the in-memory
filesystem that now holds the repository returns `ErrNoRepository`, while a second
`CreateRepositoryFS` on it succeeds. -/
theorem OpenRepositoryFS_asks_os_witness :
    CreateRepositoryFS diffOs emptyFs "/test".toList =
      .ok (sampleRepoFs, { path := "/test".toList }) ∧
    IsRepositoryFs sampleRepoFs "/test".toList = true ∧
    IsRepository diffOs "/test".toList = false ∧
    OpenRepositoryFS diffOs sampleRepoFs "/test".toList = .error .noRepository ∧
    CreateRepositoryFS diffOs sampleRepoFs "/test".toList =
      .ok (sampleRepoFs, { path := "/test".toList }) :=
  ⟨rfl, by decide, by decide,
    OpenRepositoryFS_asks_os diffOs sampleRepoFs "/test".toList (by decide), rfl⟩

/-! ## Archive writer: entry types -/

/-- C15 (code defect): for a regular file of length zero, off the blacklist and added
without whiteout, `AddEntry` returns without error and leaves the writer as it was: no
header is written and no device-inode key is recorded. The one-byte probe read is at end
of file at once, and the code takes that for an unreadable file. -/
theorem AddEntry_skips_empty_file (os : OsFs) (now : Int) (w : TarWriter)
    (realPath inImagePath : Str) (info : FileInfo) (node : OsNode)
    (hreg : info.Mode &&& ModeType = 0)
    (hbl : blacklist.contains (trimSlash inImagePath) = false)
    (hos : os realPath = some node) (hdata : node.data = some []) :
    w.AddEntry os now realPath inImagePath info false = .ok w := by
  have e1 : (0 : Nat) ≠ ModeSocket := by decide
  have e2 : (0 : Nat) ≠ ModeNamedPipe := by decide
  have e3 : (0 : Nat) ≠ ModeSticky := by decide
  have e4 : (0 : Nat) ≠ ModeExclusive := by decide
  have e5 : (0 : Nat) ≠ ModeDir := by decide
  have e6 : (0 : Nat) ≠ ModeDevice := by decide
  have e7 : (0 : Nat) ≠ ModeCharDevice := by decide
  have e8 : (0 : Nat) ≠ ModeSymlink := by decide
  unfold TarWriter.AddEntry
  simp only [hbl, hreg, e1, e2, e3, e4, e5, e6, e7, e8, hos, hdata, or_self, if_false,
    Bool.false_eq_true]

/-- Witness for C15: the zero-length file `/s/empty` added as `empty` to a new writer. -/
theorem AddEntry_skips_empty_file_witness :
    (specialOs "/s/empty".toList).map (fun n => (n.info.Size, n.data)) = some (0, some []) ∧
    NewTarWriter.AddEntry specialOs 0 "/s/empty".toList "empty".toList
      (sampleInfo "empty" 0 0o644 60) false = .ok NewTarWriter :=
  ⟨by decide,
    AddEntry_skips_empty_file specialOs 0 NewTarWriter "/s/empty".toList "empty".toList
      (sampleInfo "empty" 0 0o644 60) ⟨sampleInfo "empty" 0 0o644 60, some [], none⟩
      (by decide) (by decide) (by decide) rfl⟩

/-- The value `info.Mode() & os.ModeType` is never `ModeSticky` and never `ModeExclusive`:
both bits lie outside the mask. -/
theorem mode_type_never_sticky_or_exclusive (m : Nat) :
    m &&& ModeType ≠ ModeSticky ∧ m &&& ModeType ≠ ModeExclusive := by
  have h1 : ModeType &&& ModeSticky = 0 := by decide
  have h2 : ModeType &&& ModeExclusive = 0 := by decide
  have h3 : (m &&& ModeType) &&& ModeSticky = 0 := by rw [Nat.land_assoc, h1]; simp
  have h4 : (m &&& ModeType) &&& ModeExclusive = 0 := by rw [Nat.land_assoc, h2]; simp
  constructor
  · intro h
    rw [h] at h3
    exact absurd h3 (by decide)
  · intro h
    rw [h] at h4
    exact absurd h4 (by decide)

/-- The part of the skip rule that holds: an entry whose type bits are exactly the socket
bit or exactly the named-pipe bit leaves the writer as it was, without error. -/
theorem AddEntry_skips_socket_and_pipe (os : OsFs) (now : Int) (w : TarWriter)
    (realPath inImagePath : Str) (info : FileInfo) (whiteout : Bool)
    (h : info.Mode &&& ModeType = ModeSocket ∨ info.Mode &&& ModeType = ModeNamedPipe) :
    w.AddEntry os now realPath inImagePath info whiteout = .ok w := by
  unfold TarWriter.AddEntry
  have hc : info.Mode &&& ModeType = ModeSocket ∨ info.Mode &&& ModeType = ModeNamedPipe ∨
      info.Mode &&& ModeType = ModeSticky ∨ info.Mode &&& ModeType = ModeExclusive := by
    rcases h with h | h
    · exact Or.inl h
    · exact Or.inr (Or.inl h)
  simp only [if_pos hc, ite_self]

/-- C16 (code defect): the sticky directory `/tmp` and the regular file `/s/excl`, whose
mode has the exclusive bit, are not skipped. `AddEntry` writes a directory header for the
first and a regular-file header with the content for the second. -/
theorem AddEntry_writes_sticky_and_exclusive :
    (sampleInfo "tmp" 0 (ModeDir ||| ModeSticky ||| 0o777) 64).Mode &&& ModeSticky ≠ 0 ∧
    (NewTarWriter.AddEntry specialOs 0 "/tmp".toList "tmp".toList
      (sampleInfo "tmp" 0 (ModeDir ||| ModeSticky ||| 0o777) 64) false).map
        (fun w => w.archive.map (fun e => (e.hdr.Typeflag, e.hdr.Name, e.payload)))
      = .ok [(.TypeDir, "tmp".toList, [])] ∧
    (sampleInfo "excl" 1 (ModeExclusive ||| 0o644) 65).Mode &&& ModeExclusive ≠ 0 ∧
    (NewTarWriter.AddEntry specialOs 0 "/s/excl".toList "excl".toList
      (sampleInfo "excl" 1 (ModeExclusive ||| 0o644) 65) false).map
        (fun w => w.archive.map (fun e => (e.hdr.Typeflag, e.hdr.Name, e.payload)))
      = .ok [(.TypeReg, "excl".toList, [5])] := by
  decide

/-- The part of the device rule that holds: for the block device `/dev/sda` one block
device header named by the image path is written, without payload. -/
theorem AddEntry_block_device_header :
    (NewTarWriter.AddEntry specialOs 0 "/dev/sda".toList "/dev/sda".toList
      (sampleInfo "sda" 0 (ModeDevice ||| 0o660) 63) false).map
        (fun w => w.archive.map (fun e => (e.hdr.Typeflag, e.hdr.Name, e.payload)))
      = .ok [(.TypeBlock, "dev/sda".toList, [])] ∧
    (NewTarWriter.AddEntry specialOs 0 "/dev/sda".toList "/dev/sda".toList
      (sampleInfo "sda" 0 (ModeDevice ||| 0o660) 63) false).map (fun w => w.seen)
      = .ok [] := by
  decide

/-- C17 (code defect): a character device has the device bit and the char-device bit, so
its type bits equal neither case constant and `AddEntry` takes the default case. For
`/dev/null` the probe read is at end of file and nothing is written; a source path that
cannot be opened is an error; with the whiteout flag a whiteout marker is written; for
`/dev/zero` the header is written after the probe and the device-inode key is recorded as
for a regular file. -/
theorem AddEntry_char_device_takes_file_path :
    (sampleInfo "null" 0 (ModeDevice ||| ModeCharDevice ||| 0o666) 61).Mode &&& ModeType
      = ModeDevice ||| ModeCharDevice ∧
    NewTarWriter.AddEntry specialOs 0 "/dev/null".toList "/dev/null".toList
      (sampleInfo "null" 0 (ModeDevice ||| ModeCharDevice ||| 0o666) 61) false
      = .ok NewTarWriter ∧
    NewTarWriter.AddEntry specialOs 0 "/dev/missing".toList "/dev/null".toList
      (sampleInfo "null" 0 (ModeDevice ||| ModeCharDevice ||| 0o666) 61) false
      = .error .notExist ∧
    (NewTarWriter.AddEntry specialOs 0 "/dev/null".toList "/dev/null".toList
      (sampleInfo "null" 0 (ModeDevice ||| ModeCharDevice ||| 0o666) 61) true).map
        (fun w => w.archive.map (fun e => (e.hdr.Typeflag, e.hdr.Name, e.payload)))
      = .ok [(.TypeRegA, "dev/.wh.null".toList, whiteoutByte)] ∧
    (NewTarWriter.AddEntry specialOs 0 "/dev/zero".toList "/dev/zero".toList
      (sampleInfo "zero" 0 (ModeDevice ||| ModeCharDevice ||| 0o666) 62) false).map
        (fun w => w.archive.map (fun e => (e.hdr.Typeflag, e.hdr.Name, e.payload)))
      = .ok [(.TypeChar, "dev/zero".toList, [])] ∧
    (NewTarWriter.AddEntry specialOs 0 "/dev/zero".toList "/dev/zero".toList
      (sampleInfo "zero" 0 (ModeDevice ||| ModeCharDevice ||| 0o666) 62) false).map
        (fun w => w.seen)
      = .ok [({ Dev := 1, Ino := 62 }, "dev/zero".toList)] := by
  refine ⟨by decide, by decide, by decide, by decide, by decide, by decide⟩

end Oci
